import Mathlib

/-!
# Verification of the NoisePage binder / logical-plan front end

Shallow embedding of the semantic-analysis and logical-plan-construction
front end found in `src/binder/bind_node_visitor.cpp` and
`src/optimizer/query_to_operator_transformer.cpp`.

Conventions:
* C++ exceptions become `Except BindError` results; the distinct exception
  macros of the source (`BINDER_EXCEPTION` with a `common::ErrorCode`,
  `NOT_IMPLEMENTED_EXCEPTION`, `OPTIMIZER_EXCEPTION`, `CATALOG_EXCEPTION`)
  become distinct `BindError` constructors.
* In-place mutation of statement nodes becomes explicit value passing: a
  visitor that rewrites a field returns the rewritten field.
* Recursive `Accept` calls that only re-derive types of already-typed
  expressions are modelled as the identity on the expression structure.
-/

namespace NoisePage

/-- Model of `execution::sql::SqlTypeId` (the members relevant to the binder). -/
inductive SqlTypeId where
  | Invalid
  | Boolean
  | TinyInt
  | SmallInt
  | IntegerT
  | BigInt
  | Double
  | Decimal
  | DateT
  | Timestamp
  | Varchar
  | Varbinary
  deriving DecidableEq, Repr

/-- Model of `common::ErrorCode` values appearing in the modelled code.  The spec's
taxonomy names `ERRCODE_INVALID_SCHEMA_DEFINITION` "SchemaMismatch", so the
constructor carries that name. -/
inductive ErrorCode where
  | UndefinedColumn       -- ERRCODE_UNDEFINED_COLUMN
  | UndefinedTable        -- ERRCODE_UNDEFINED_TABLE
  | UndefinedDatabase     -- ERRCODE_UNDEFINED_DATABASE
  | SyntaxError           -- ERRCODE_SYNTAX_ERROR
  | DatatypeMismatch      -- ERRCODE_DATATYPE_MISMATCH
  | SchemaMismatch        -- ERRCODE_INVALID_SCHEMA_DEFINITION
  | NumericValueOutOfRange -- ERRCODE_NUMERIC_VALUE_OUT_OF_RANGE
  | FeatureNotSupported   -- ERRCODE_FEATURE_NOT_SUPPORTED
  deriving DecidableEq, Repr

/-- The exception kinds thrown by the modelled code.  `binderErr` is
`BINDER_EXCEPTION(msg, code)`; `notImplemented` is
`NOT_IMPLEMENTED_EXCEPTION(msg)` (a `NotImplementedException`, which carries
no `common::ErrorCode`); `optimizerErr` is `OPTIMIZER_EXCEPTION(msg)`;
`catalogErr` is `CATALOG_EXCEPTION(msg)`. -/
inductive BindError where
  | binderErr (msg : String) (code : ErrorCode)
  | notImplemented (msg : String)
  | optimizerErr (msg : String)
  | catalogErr (msg : String)
  deriving DecidableEq, Repr

/-- The `common::ErrorCode` reported by an error, when it carries one. -/
def BindError.errorCode : BindError → Option ErrorCode
  | .binderErr _ code => some code
  | _ => none

/-! ## Insert values: expressions and schema columns

Model of the expression values appearing in an INSERT statement's VALUES
rows, with exactly the structure `ValidateAndCorrectInsertValues` inspects:
the expression kind (`VALUE_CONSTANT`, `VALUE_DEFAULT`, `OPERATOR_CAST`,
anything else), the return type, and — for constants — the SQL NULL flag
and value (used by the `*schema_col.StoredExpression() != *null_ex`
comparison, which is expression equality). -/

/-- Expression values in INSERT statements.  `constant ty isNull v` is a
`ConstantValueExpression`; `valueDefault` the DEFAULT marker
(`ExpressionType::VALUE_DEFAULT`); `castOp ty child` an
`ExpressionType::OPERATOR_CAST` node; `otherExpr ty` any other expression
kind with return type `ty`. -/
inductive Expr where
  | constant (ty : SqlTypeId) (isNull : Bool) (val : Int)
  | valueDefault
  | castOp (ty : SqlTypeId) (child : Expr)
  | otherExpr (ty : SqlTypeId)
  deriving DecidableEq, Repr

/-- Model of `AbstractExpression::GetReturnValueType`.  A `DefaultValueExpression`
never has its return value type set, so it reports `Invalid`. -/
def Expr.returnValueType : Expr → SqlTypeId
  | .constant ty _ _ => ty
  | .valueDefault => .Invalid
  | .castOp ty _ => ty
  | .otherExpr ty => ty

/-- Model of `std::make_unique<ConstantValueExpression>(type, execution::sql::Val(true))`:
a NULL constant of the given type. -/
def nullOfType (ty : SqlTypeId) : Expr := .constant ty true 0

/-- Model of `catalog::Schema::Column`, restricted to the fields the binder reads.
In the catalog the stored expression is never absent: it is a typed NULL
when the column has no explicit default. -/
structure Column where
  name : String
  ty : SqlTypeId
  nullable : Bool
  storedExpression : Expr
  deriving DecidableEq, Repr

/-- Model of `BinderContext::ColumnInSchema` (documented in `binder_context.h`):
true iff the column name is in the schema. -/
def columnInSchema (schema : List Column) (colName : String) : Bool :=
  schema.any (fun c => c.name = colName)

/-- Model of `std::find(insert_columns->begin(), insert_columns->end(), name)` plus
`std::distance`: index of the first occurrence of `s`, if any. -/
def findIndex (s : String) : List String → Option Nat
  | [] => none
  | x :: xs => if x = s then some 0 else (findIndex s xs).map (· + 1)

/-- Effectful map over a list in the `Except` monad, written recursively
(the shape of the source's element-by-element loops: the first failing
element aborts). -/
def mapME (f : α → Except BindError β) : List α → Except BindError (List β)
  | [] => .ok []
  | a :: as => do
    let b ← f a
    let bs ← mapME f as
    pure (b :: bs)

/-- The error thrown at bind_node_visitor.cpp:1042. -/
def columnNotPresentError : BindError :=
  .binderErr "Column not present, does not have a default and is non-nullable."
    ErrorCode.SyntaxError

/-- The error thrown at bind_node_visitor.cpp:994. -/
def insertCountMismatchError : BindError :=
  .binderErr "Mismatch in number of insert columns and number of insert values."
    ErrorCode.SyntaxError

/-- The per-schema-column matching step of `ValidateAndCorrectInsertValues`
(bind_node_visitor.cpp:1009-1046), run when an insert-column list was
specified: each schema column is looked up in the insert-column list; if
present it is paired with the value at the column's index, otherwise with
its stored default expression, or a typed NULL if nullable, else the bind
fails. -/
def matchInsertColumn (insertColumns : List String) (values : List Expr)
    (schemaCol : Column) : Except BindError (Column × Expr) :=
  match findIndex schemaCol.name insertColumns with
  | some index => .ok (schemaCol, values.getD index (.otherExpr .Invalid))
  | none =>
    if schemaCol.storedExpression ≠ nullOfType schemaCol.ty then
      .ok (schemaCol, schemaCol.storedExpression)
    else if schemaCol.nullable then
      .ok (schemaCol, nullOfType schemaCol.ty)
    else
      .error columnNotPresentError

/-- The error thrown at bind_node_visitor.cpp:1079-1080. -/
def castTypeMismatchError : BindError :=
  .binderErr "BindNodeVisitor tried to cast, but cast result type does not match the schema."
    ErrorCode.NumericValueOutOfRange

/-- The final per-value correction loop of `ValidateAndCorrectInsertValues`
(bind_node_visitor.cpp:1058-1091): `ret_type` is read from the original
value, DEFAULT markers are replaced by a copy of the column's stored
expression, and a CAST node is collapsed to its child after checking that
the (original) return type matches the schema type.  The trailing
`ins_val->Accept(...)` re-bind is modelled as the identity. -/
def correctInsertValue (col : Column) (insVal : Expr) : Except BindError Expr :=
  let retType := insVal.returnValueType
  let insVal := if insVal = .valueDefault then col.storedExpression else insVal
  match insVal with
  | .castOp _ child =>
    if retType ≠ col.ty then
      .error castTypeMismatchError
    else
      .ok child
  | v => .ok v

/-- True exactly on `OPERATOR_CAST` nodes. -/
def Expr.isCastOp : Expr → Bool
  | .castOp _ _ => true
  | _ => false

/-- Model of `BindNodeVisitor::ValidateAndCorrectInsertValues`
(bind_node_visitor.cpp:978-1092) on one VALUES row: validates the
column/value counts, pairs each schema column with its value (in schema
order), and corrects each value.  Returns the corrected (schema-ordered)
values the statement's row is overwritten with. -/
def validateAndCorrectInsertValues (insertColumns : List String)
    (values : List Expr) (schema : List Column) : Except BindError (List Expr) := do
  let numInsertColumns := insertColumns.length
  let numValues := values.length
  let isInsertColsSpecified := numInsertColumns ≠ 0
  let insertColsOk := isInsertColsSpecified ∧ numValues = numInsertColumns
  let insertSchemaOk := ¬ isInsertColsSpecified ∧ numValues = schema.length
  if ¬ (insertColsOk ∨ insertSchemaOk) then
    throw insertCountMismatchError
  else
    let cols ←
      if numInsertColumns = 0 then
        -- tuple values are already schema ordered (bind_node_visitor.cpp:1001-1006)
        pure (schema.zip values)
      else
        mapME (matchInsertColumn insertColumns values) schema
    mapME (fun p => correctInsertValue p.1 p.2) cols

/-- The INSERT part of `BindNodeVisitor::Visit(InsertStatement)`
(bind_node_visitor.cpp:383-412) for a raw (non-SELECT) insert: checks that
all insert columns exist in the schema, validates and corrects each VALUES
row, and rewrites the statement's insert-column list to the full
schema-ordered column list.  Returns the rewritten column list and rows. -/
def visitInsertStatement (insertColumns : List String)
    (rows : List (List Expr)) (schema : List Column) :
    Except BindError (List String × List (List Expr)) := do
  if insertColumns.any (fun c => ¬ columnInSchema schema c) then
    throw (.binderErr "Insert column does not exist" ErrorCode.UndefinedColumn)
  let rows' ← mapME (fun v => validateAndCorrectInsertValues insertColumns v schema) rows
  pure (schema.map (fun c => c.name), rows')

/-! ## ORDER BY unification

Model of `BindNodeVisitor::UnifyOrderByExpression`
(bind_node_visitor.cpp:916-959).  An order-by entry is inspected for its
expression kind; a `VALUE_CONSTANT` is converted to a select-list position,
a table-less `COLUMN_VALUE` is matched against select-list output names. -/

/-- An expression as inspected by `UnifyOrderByExpression`:
a `ConstantValueExpression` (for integer types `ival` is
`GetInteger().val_`; for `Double` it is `GetReal().val_` after the C++
`double`-to-`int64_t` conversion, i.e. truncation toward zero), a
`ColumnValueExpression` with its table alias and column name, or any other
expression with its derived expression name (`uid` distinguishes distinct
nodes). -/
inductive OrderExpr where
  | valueConstant (ty : SqlTypeId) (ival : Int)
  | columnValue (tableAlias : String) (colName : String)
  | otherExpr (name : String) (uid : Nat)
  deriving DecidableEq, Repr

/-- Model of `AbstractExpression::GetExpressionName` for the order-by model: a
`ColumnValueExpression` derives its column name; constants have no name. -/
def OrderExpr.expressionName : OrderExpr → String
  | .valueConstant _ _ => ""
  | .columnValue _ colName => colName
  | .otherExpr name _ => name

/-- The `switch (type)` at bind_node_visitor.cpp:926-938: the constant's
value for the four integer types and `Double`, else the SyntaxError. -/
def extractColumnId (ty : SqlTypeId) (ival : Int) : Except BindError Int :=
  match ty with
  | .TinyInt | .SmallInt | .IntegerT | .BigInt => .ok ival
  | .Double => .ok ival
  | _ => .error (.binderErr "non-integer constant in ORDER BY" ErrorCode.SyntaxError)

/-- The error thrown at bind_node_visitor.cpp:940-941. -/
def orderByPositionError (columnId : Int) : BindError :=
  .binderErr ("ORDER BY position \x22" ++ toString columnId ++ "\x22 is not in select list")
    ErrorCode.UndefinedColumn

/-- Processing of one order-by entry (the body of the loop at
bind_node_visitor.cpp:921-957). -/
def unifyOrderByEntry (selectItems : List OrderExpr) (e : OrderExpr) :
    Except BindError OrderExpr :=
  match e with
  | .valueConstant ty ival => do
    let columnId ← extractColumnId ty ival
    if columnId < 1 ∨ columnId > (selectItems.length : Int) then
      .error (orderByPositionError columnId)
    else
      .ok (selectItems.getD (columnId - 1).toNat (.otherExpr "" 0))
  | .columnValue tableAlias colName =>
    if tableAlias = "" ∧ colName ≠ "" then
      .ok (match selectItems.find? (fun s => s.expressionName = colName) with
           | some s => s
           | none => .columnValue tableAlias colName)
    else
      .ok e
  | e => .ok e

/-- Model of `BindNodeVisitor::UnifyOrderByExpression`: rewrites every order-by
expression in place. -/
def unifyOrderByExpression (exprs : List OrderExpr) (selectItems : List OrderExpr) :
    Except BindError (List OrderExpr) :=
  match exprs with
  | [] => .ok []
  | e :: rest => do
    let e' ← unifyOrderByEntry selectItems e
    let rest' ← unifyOrderByExpression rest selectItems
    pure (e' :: rest')

/-! ## WITH clause column-alias reconciliation

Model of the alias-reconciliation block of
`BindNodeVisitor::Visit(SelectStatement)` (bind_node_visitor.cpp:463-496).
Serial numbers come from successive `catalog_accessor_->GetNewTempOid()`
calls, modelled as consecutive numbers from `firstSerial`. -/

/-- The error thrown at bind_node_visitor.cpp:469-473. -/
def cteAliasCountError (cteName : String) (numColumns numAliases : Nat) : BindError :=
  .binderErr ("WITH query " ++ cteName ++ " has " ++ toString numColumns ++
      " columns available but " ++ toString numAliases ++ " specified")
    ErrorCode.SchemaMismatch

/-- Column-alias reconciliation for one WITH clause: given the CTE's given
column aliases and the natural expression names of its select columns,
produce the final `(name, serial)` alias list, or fail when more aliases
than columns are given.  The first loop (bind_node_visitor.cpp:480-485)
takes the given aliases; the second (487-496) synthesizes the rest from
each column's expression name, falling back to `?column?` when empty. -/
def reconcileCteAliases (cteName : String) (columnAliases : List String)
    (columnNames : List String) (firstSerial : Nat) :
    Except BindError (List (String × Nat)) :=
  let numAliases := columnAliases.length
  let numColumns := columnNames.length
  if numAliases > numColumns then
    .error (cteAliasCountError cteName numColumns numAliases)
  else
    .ok (((List.range numAliases).map
            (fun i => (columnAliases.getD i "", firstSerial + i))) ++
         ((List.range' numAliases (numColumns - numAliases)).map
            (fun i =>
              let n := columnNames.getD i ""
              (if n = "" then "?column?" else n, firstSerial + i))))

/-! ## UNION compatibility

Model of the UNION check of `BindNodeVisitor::Visit(SelectStatement)`
(bind_node_visitor.cpp:575-587), which compares the two sides'
select-column counts and then the return value types position by
position. -/

/-- The error thrown at bind_node_visitor.cpp:580 and 584. -/
def unionMismatchError : BindError :=
  .binderErr "Mismatched schemas in union" ErrorCode.DatatypeMismatch

/-- The pairwise type-comparison loop (bind_node_visitor.cpp:582-586). -/
def unionPairwiseCheck : List SqlTypeId → List SqlTypeId → Except BindError Unit
  | [], _ => .ok ()
  | _ :: _, [] => .ok ()
  | l :: ls, r :: rs =>
    if l ≠ r then .error unionMismatchError else unionPairwiseCheck ls rs

/-- The UNION compatibility check: fails when the column counts differ,
then when any positional pair of return types differ. -/
def unionCompatibilityCheck (leftTypes rightTypes : List SqlTypeId) :
    Except BindError Unit :=
  if leftTypes.length ≠ rightTypes.length then .error unionMismatchError
  else unionPairwiseCheck leftTypes rightTypes

/-! ## Logical plan construction: expressions

Model of the expression structure `QueryToOperatorTransformer` inspects:
the expression kind, the scope depth assigned by the binder, and the
children. -/

/-- The `parser::ExpressionType` members the transformer inspects. -/
inductive PExprType where
  | compareEqual
  | compareNotEqual
  | compareLessThan
  | compareGreaterThan
  | compareLessThanOrEqualTo
  | compareGreaterThanOrEqualTo
  | compareIn
  | conjunctionAnd
  | columnValue
  | rowSubquery
  | operatorExists
  | aggregateFn
  | otherType
  deriving DecidableEq, Repr

/-- An abstract expression as seen by the transformer: its kind, the scope
depth derived by the binder (`AbstractExpression::GetDepth`, default -1),
and its children. -/
inductive PExpr where
  | node (ty : PExprType) (depth : Int) (children : List PExpr)
  deriving Repr

/-- Model of `AbstractExpression::GetExpressionType`. -/
def PExpr.typeOf : PExpr → PExprType
  | .node t _ _ => t

/-- Model of `AbstractExpression::GetDepth`. -/
def PExpr.depthOf : PExpr → Int
  | .node _ d _ => d

/-- Model of `AbstractExpression::GetChildren`. -/
def PExpr.childrenOf : PExpr → List PExpr
  | .node _ _ cs => cs

/-- Model of `AbstractExpression::GetChild(i)` (comparison nodes always carry two
children in parsed statements). -/
def PExpr.getChild (e : PExpr) (i : Nat) : PExpr :=
  e.childrenOf.getD i (.node .otherType (-1) [])

/-- Nonempty result of `parser::ExpressionUtil::GetAggregateExprs`: some
node of the expression tree is an aggregate expression. -/
def PExpr.containsAggregate : PExpr → Bool
  | .node t _ cs => t = .aggregateFn || goAggregate cs
where goAggregate : List PExpr → Bool
  | [] => false
  | c :: cs => c.containsAggregate || goAggregate cs

/-- Model of `AbstractExpression::HasSubquery` (derived by
`DeriveSubqueryFlag`): some node of the tree is a `ROW_SUBQUERY`. -/
def PExpr.hasSubquery : PExpr → Bool
  | .node t _ cs => t = .rowSubquery || goSubquery cs
where goSubquery : List PExpr → Bool
  | [] => false
  | c :: cs => c.hasSubquery || goSubquery cs

/-- Model of `QueryToOperatorTransformer::SplitPredicates`
(query_to_operator_transformer.cpp:982-998): flattens a tree of
`CONJUNCTION_AND` nodes into the list of its non-AND leaves. -/
def splitPredicatesExpr : PExpr → List PExpr
  | .node .conjunctionAnd _ cs => goSplit cs
  | e => [e]
where goSplit : List PExpr → List PExpr
  | [] => []
  | c :: cs => splitPredicatesExpr c ++ goSplit cs

/-- Model of `SplitPredicates` on a possibly-null expression (the `nullptr` early
return at query_to_operator_transformer.cpp:985-987). -/
def splitPredicates : Option PExpr → List PExpr
  | none => []
  | some e => splitPredicatesExpr e

/-- The six binary comparison types handled at
query_to_operator_transformer.cpp:775-780. -/
def binaryComparisonTypes : List PExprType :=
  [.compareEqual, .compareNotEqual, .compareGreaterThan,
   .compareGreaterThanOrEqualTo, .compareLessThan, .compareLessThanOrEqualTo]

/-- Model of `QueryToOperatorTransformer::IsSupportedConjunctivePredicate`
(query_to_operator_transformer.cpp:852-888). -/
def isSupportedConjunctivePredicate (e : PExpr) : Bool :=
  if ¬ e.hasSubquery then true
  else if e.typeOf = .compareIn ∧ (e.getChild 0).typeOf ≠ .rowSubquery ∧
      (e.getChild 1).typeOf = .rowSubquery then true
  else if e.typeOf = .operatorExists ∧ (e.getChild 0).typeOf = .rowSubquery then true
  else if e.typeOf ∈ binaryComparisonTypes then
    (¬ (e.getChild 0).hasSubquery ∧ (e.getChild 1).typeOf = .rowSubquery) ∨
    (¬ (e.getChild 1).hasSubquery ∧ (e.getChild 0).typeOf = .rowSubquery)
  else false

/-- The error thrown by `RequireAggregation`
(query_to_operator_transformer.cpp:825-828) when aggregates and other
expressions are mixed with no GROUP BY. -/
def mixedAggregateError : BindError :=
  .optimizerErr
    "Non aggregation expression must appear in the GROUP BY clause or be used in an aggregate function"

/-- Model of `QueryToOperatorTransformer::RequireAggregation`
(query_to_operator_transformer.cpp:805-830), taking the select statement's
select columns and whether a GROUP BY is present. -/
def requireAggregation (selectColumns : List PExpr) (hasGroupBy : Bool) :
    Except BindError Bool :=
  if hasGroupBy then .ok true
  else
    let hasAggregation := selectColumns.any PExpr.containsAggregate
    let hasOtherExprs := selectColumns.any (fun e => !e.containsAggregate)
    if hasAggregation && hasOtherExprs then .error mixedAggregateError
    else .ok hasAggregation

/-! ## Logical plan construction: statements and operator trees -/

/-- Model of `parser::OrderType` (`kOrderAsc` / `kOrderDesc`). -/
inductive OrderType where
  | orderAsc
  | orderDesc
  deriving DecidableEq, Repr

/-- Model of `optimizer::OrderByOrderingType`. -/
inductive SortDirection where
  | asc
  | desc
  deriving DecidableEq, Repr

/-- The mapping from parsed order types to plan orderings at
query_to_operator_transformer.cpp:230-235: `kOrderAsc` maps to `ASC`,
anything else to `DESC`. -/
def toSortDirection : OrderType → SortDirection
  | .orderAsc => .asc
  | .orderDesc => .desc

/-- Model of `parser::LimitDescription`: `GetLimit()` is `-1` when no limit value
was given, `GetOffset()` may be negative. -/
structure LimitClause where
  limit : Int
  offset : Int
  deriving DecidableEq, Repr

/-- The bound statement tree as the transformer consumes it.  `selectStmt`
is a `parser::SelectStatement` (WITH clauses are not modelled: the
theorems below describe CTE-free statements); `baseRef`, `derivedRef` and
`listRef` are the three data shapes of `parser::TableRef` the transformer
distinguishes at query_to_operator_transformer.cpp:342-412 (a `baseRef`
names a regular catalog table). -/
inductive Node where
  | selectStmt
      (selectColumns : List PExpr)
      (distinct : Bool)
      (fromClause : Option Node)
      (whereClause : Option PExpr)
      (groupByColumns : Option (List PExpr))
      (having : Option PExpr)
      (orderBy : Option (List PExpr × List OrderType))
      (limitClause : Option LimitClause)
      (unionSelect : Option Node)
      (depth : Int)
  | baseRef (tableName : String)
  | derivedRef (tableAlias : String) (sub : Node)
  | listRef (refs : List Node)
  deriving Repr

/-- Model of `SelectStatement::GetSelectColumns` (empty for non-select nodes). -/
def Node.selectColumnsOf : Node → List PExpr
  | .selectStmt cols _ _ _ _ _ _ _ _ _ => cols
  | _ => []

/-- The logical operator tree (`OperatorNode` trees over the logical
operators the modelled code constructs). -/
inductive OpTree where
  | emptyGet
  | get (tableName : String)
  | queryDerivedGet (tableAlias : String) (child : OpTree)
  | filterOp (predicates : List PExpr) (child : OpTree)
  | aggregateAndGroupBy (groupByCols : List PExpr) (child : OpTree)
  | innerJoin (left right : OpTree)
  | limitOp (offset : Int) (limit : Int) (sortExprs : List PExpr)
      (sortDirections : List SortDirection) (child : OpTree)
  | unionOp (left right : OpTree)
  deriving Repr

/-- Model of `QueryToOperatorTransformer::IsSupportedSubSelect`
(query_to_operator_transformer.cpp:890-917).  Only ever called on select
statements; returns true on other node shapes. -/
def isSupportedSubSelect : Node → Except BindError Bool
  | .selectStmt cols _ _ whereC groupBy _ _ _ _ depth => do
    let req ← requireAggregation cols groupBy.isSome
    if ¬ req then pure true
    else
      pure ((splitPredicates whereC).all (fun pred =>
        if pred.depthOf < depth then
          decide (pred.typeOf = .compareEqual) &&
          ((decide ((pred.getChild 1).depthOf = depth) &&
            decide ((pred.getChild 0).typeOf = .columnValue)) ||
           (decide ((pred.getChild 0).depthOf = depth) &&
            decide ((pred.getChild 1).typeOf = .columnValue)))
        else true))
  | _ => pure true

/-- The validation prefix of `QueryToOperatorTransformer::GenerateSubqueryTree`
(query_to_operator_transformer.cpp:925-929), applied to the subquery's
select statement: an unsupported sub-select, then a sub-select with more
than one output column, abort the transform. -/
def generateSubqueryCheck (subSelect : Node) : Except BindError Unit := do
  let ok ← isSupportedSubSelect subSelect
  if ¬ ok then throw (.notImplemented "Sub-select not supported")
  if subSelect.selectColumnsOf.length ≠ 1 then
    throw (.notImplemented "Array in predicates not supported")
  pure ()

/-- The dispatch of `QueryToOperatorTransformer::Visit(ComparisonExpression)`
(query_to_operator_transformer.cpp:770-790) on the expression kind and the
kinds of its two children; the subquery rewriting itself
(`GenerateSubqueryTree`) is modelled separately. -/
def visitComparisonCheck (exprType c0ty c1ty : PExprType) : Except BindError Unit :=
  if exprType = .compareIn then .ok ()
  else if exprType ∈ binaryComparisonTypes then
    if c0ty = .rowSubquery ∧ c1ty = .rowSubquery then
      .error (.notImplemented "Comparisons between sub-selects are not supported")
    else .ok ()
  else .ok ()

/-- The supported-shape check of `CollectPredicates`
(query_to_operator_transformer.cpp:838-844): every conjunct must satisfy
`IsSupportedConjunctivePredicate`, else the transform fails with a
not-implemented error. -/
def checkConjunctivePredicates (preds : List PExpr) : Except BindError Unit :=
  if preds.any (fun p => !isSupportedConjunctivePredicate p) then
    throw (.notImplemented "Expression type is not supported")
  else pure ()

/-- The WHERE-predicate wrap of `Visit(SelectStatement)`
(query_to_operator_transformer.cpp:161-168): a nonempty collected
predicate list wraps the base operator in a `LogicalFilter`. -/
def buildFilter (preds : List PExpr) (child : OpTree) : OpTree :=
  if preds.isEmpty then child else .filterOp preds child

/-- The aggregation/DISTINCT block of `Visit(SelectStatement)`
(query_to_operator_transformer.cpp:170-218), given the result `req` of
`RequireAggregation`: plain aggregation, GROUP BY (with HAVING lowered to
a post-aggregate filter), or the DISTINCT-to-GROUP-BY rewrite. -/
def buildAggregate (cols : List PExpr) (distinct : Bool)
    (groupBy : Option (List PExpr)) (having : Option PExpr) (req : Bool)
    (child : OpTree) : Except BindError OpTree :=
  if req then
    match groupBy with
    | none => pure (.aggregateAndGroupBy [] child)
    | some gcols => do
      let havingPreds := splitPredicates having
      let _ ← checkConjunctivePredicates havingPreds
      let agg := OpTree.aggregateAndGroupBy gcols child
      pure (if havingPreds.isEmpty then agg else .filterOp havingPreds agg)
  else if distinct then
    pure (.aggregateAndGroupBy cols child)
  else
    pure child

/-- The ORDER BY / LIMIT / OFFSET block of `Visit(SelectStatement)`
(query_to_operator_transformer.cpp:220-244): a `LogicalLimit` node is
built only when a LIMIT clause is present and its value is not `-1`; the
sort keys and directions are read from the ORDER BY only here, and a
negative offset is clamped to 0 by `std::max`. -/
def buildLimit (orderBy : Option (List PExpr × List OrderType))
    (limitC : Option LimitClause) (child : OpTree) : OpTree :=
  match limitC with
  | some lc =>
    if lc.limit ≠ -1 then
      let sortExprs := match orderBy with | some ob => ob.1 | none => []
      let sortDirections :=
        match orderBy with
        | some ob => ob.2.map toSortDirection
        | none => []
      .limitOp (max lc.offset 0) lc.limit sortExprs sortDirections child
    else child
  | none => child

mutual

/-- Model of `QueryToOperatorTransformer`'s visitor, as one recursive function from
bound statement nodes to logical operator trees.  The select branch
follows `Visit(SelectStatement)` (query_to_operator_transformer.cpp:65-277)
for CTE-free statements whose predicates do not require subquery
decorrelation; the table-reference branches follow `Visit(TableRef)`
(342-412) and `Visit(JoinDefinition)` is not modelled. -/
def transform : Node → Except BindError OpTree
  | .baseRef tableName => pure (.get tableName)
  | .derivedRef tableAlias sub => do
    pure (.queryDerivedGet tableAlias (← transform sub))
  | .listRef refs =>
    match refs with
    | [] => pure .emptyGet
    | [r] => transform r   -- size == 1: `node = node->GetList().at(0)` (line 391)
    | r :: rs => do        -- size > 1: left-deep implicit-join chain (lines 369-388)
      let t0 ← transform r
      chainRest t0 rs
  | .selectStmt cols distinct fromC whereC groupBy having orderBy limitC unionC _depth => do
    let base ←
      match fromC with
      | some tr => transform tr
      | none => pure OpTree.emptyGet
    -- WHERE: `CollectPredicates` (the decorrelating rewrite of supported
    -- subquery predicates is not modelled)
    let preds := splitPredicates whereC
    let _ ← checkConjunctivePredicates preds
    let req ← requireAggregation cols groupBy.isSome
    let afterAgg ← buildAggregate cols distinct groupBy having req (buildFilter preds base)
    let afterLimit := buildLimit orderBy limitC afterAgg
    match unionC with
    | some u => do
      let right ← transform u
      pure (OpTree.unionOp afterLimit right)
    | none => pure afterLimit

/-- The left-deep implicit-join loop
(query_to_operator_transformer.cpp:375-387): each further table in list
order becomes the right child of a new inner join whose left child is the
chain built so far. -/
def chainRest (prev : OpTree) : List Node → Except BindError OpTree
  | [] => pure prev
  | r :: rest => do
    let t ← transform r
    chainRest (OpTree.innerJoin prev t) rest

end

/-! ## Derived observations on operator trees and statements -/

/-- Whether an operator tree contains a `LogicalLimit` node anywhere. -/
def OpTree.containsLimit : OpTree → Bool
  | .emptyGet => false
  | .get _ => false
  | .queryDerivedGet _ c => c.containsLimit
  | .filterOp _ c => c.containsLimit
  | .aggregateAndGroupBy _ c => c.containsLimit
  | .innerJoin l r => l.containsLimit || r.containsLimit
  | .limitOp _ _ _ _ _ => true
  | .unionOp l r => l.containsLimit || r.containsLimit

/-- Whether every `LogicalLimit` node of an operator tree has a
non-negative offset. -/
def OpTree.limitOffsetsNonneg : OpTree → Bool
  | .emptyGet => true
  | .get _ => true
  | .queryDerivedGet _ c => c.limitOffsetsNonneg
  | .filterOp _ c => c.limitOffsetsNonneg
  | .aggregateAndGroupBy _ c => c.limitOffsetsNonneg
  | .innerJoin l r => l.limitOffsetsNonneg && r.limitOffsetsNonneg
  | .limitOp offset _ _ _ c => decide (0 ≤ offset) && c.limitOffsetsNonneg
  | .unionOp l r => l.limitOffsetsNonneg && r.limitOffsetsNonneg

/-- Whether no query block of a statement has a LIMIT clause with a value
other than the absent-value sentinel `-1` (covering derived tables in FROM
and UNION arms). -/
def Node.limitFree : Node → Bool
  | .selectStmt _ _ fromC _ _ _ _ limitC unionC _ =>
    (match limitC with
     | none => true
     | some lc => decide (lc.limit = -1)) &&
    (match fromC with
     | some t => t.limitFree
     | none => true) &&
    (match unionC with
     | some u => u.limitFree
     | none => true)
  | .baseRef _ => true
  | .derivedRef _ sub => sub.limitFree
  | .listRef refs => goLimitFree refs
where goLimitFree : List Node → Bool
  | [] => true
  | r :: rs => r.limitFree && goLimitFree rs

/-- The three conjuncts of `Node.limitFree` on a select statement, written
out for reuse in proofs. -/
def selectLimitFreeParts (limitC : Option LimitClause) (fromC unionC : Option Node) : Bool :=
  (match limitC with
   | none => true
   | some lc => decide (lc.limit = -1)) &&
  (match fromC with
   | some t => t.limitFree
   | none => true) &&
  (match unionC with
   | some u => u.limitFree
   | none => true)

/-- The spec's reading of "performs aggregation": a GROUP BY is present or
some select column contains an aggregate function. -/
def performsAggregation (selectColumns : List PExpr) (hasGroupBy : Bool) : Bool :=
  hasGroupBy || selectColumns.any PExpr.containsAggregate

/-- The correlated-predicate shape required by `IsSupportedSubSelect`:
a top-level equality with a `COLUMN_VALUE` child on one side and the other
child at the subquery's own depth. -/
def correlatedPredicateConforms (depth : Int) (pred : PExpr) : Bool :=
  decide (pred.typeOf = .compareEqual) &&
  ((decide ((pred.getChild 1).depthOf = depth) &&
    decide ((pred.getChild 0).typeOf = .columnValue)) ||
   (decide ((pred.getChild 0).depthOf = depth) &&
    decide ((pred.getChild 1).typeOf = .columnValue)))

/-- The eligibility condition exactly as the specification words it
(claim-side definition, for comparison with `isSupportedSubSelect`): the
subquery performs no aggregation, or it aggregates and every correlated
predicate among the conjuncts of its WHERE clause conforms. -/
def eligibleSpec : Node → Bool
  | .selectStmt cols _ _ whereC groupBy _ _ _ _ depth =>
    !(performsAggregation cols groupBy.isSome) ||
    (performsAggregation cols groupBy.isSome &&
      (splitPredicates whereC).all (fun pred =>
        if pred.depthOf < depth then correlatedPredicateConforms depth pred else true))
  | _ => true

/-- The left-deep chain of inner joins, as the specification words it
(claim-side definition, for comparison with the transformer's output):
the first two trees join at the bottom, each further tree becomes the
right child of a new join on top. -/
def leftDeepChainSpec (first : OpTree) (rest : List OpTree) : OpTree :=
  rest.foldl OpTree.innerJoin first

/-! ## Helper lemmas -/

theorem mapME_ok_of_forall {α β : Type} {f : α → Except BindError β} {g : α → β} :
    ∀ {l : List α}, (∀ a ∈ l, f a = .ok (g a)) → mapME f l = .ok (l.map g) := by
  intro l
  induction l with
  | nil => intro _; rfl
  | cons x xs ih =>
    intro h
    have hx := h x (List.mem_cons_self x xs)
    have hxs := ih (fun a ha => h a (List.mem_cons_of_mem x ha))
    simp [mapME, hx, hxs, Bind.bind, Except.bind, pure, Except.pure]

theorem mapME_error_const {α β : Type} {f : α → Except BindError β} {e₀ : BindError} :
    ∀ {l : List α}, (∀ b ∈ l, ∀ e, f b = .error e → e = e₀) →
    (∃ a ∈ l, ∃ e, f a = .error e) → mapME f l = .error e₀ := by
  intro l
  induction l with
  | nil => intro _ h; simp at h
  | cons x xs ih =>
    intro hall hmem
    cases hfx : f x with
    | error e =>
      have : e = e₀ := hall x (List.mem_cons_self x xs) e hfx
      subst this
      simp [mapME, hfx, Bind.bind, Except.bind]
    | ok y =>
      have hxs : ∃ a ∈ xs, ∃ e, f a = .error e := by
        obtain ⟨a, ha, e, he⟩ := hmem
        rcases List.mem_cons.mp ha with rfl | ha'
        · rw [hfx] at he; cases he
        · exact ⟨a, ha', e, he⟩
      have := ih (fun b hb => hall b (List.mem_cons_of_mem x hb)) hxs
      simp [mapME, hfx, Bind.bind, Except.bind, this]

theorem findIndex_eq_none_iff (s : String) :
    ∀ (l : List String), findIndex s l = none ↔ s ∉ l := by
  intro l
  induction l with
  | nil => simp [findIndex]
  | cons x xs ih =>
    by_cases hx : x = s
    · subst hx
      simp [findIndex]
    · simp [findIndex, hx, ih, Option.map_eq_none', Ne.symm hx]

theorem findIndex_nodup_get (l : List String) (hd : l.Nodup) :
    ∀ (i : Nat) (h : i < l.length), findIndex (l.get ⟨i, h⟩) l = some i := by
  induction l with
  | nil => intro i h; simp at h
  | cons x xs ih =>
    intro i h
    match i with
    | 0 => simp [findIndex]
    | Nat.succ j =>
      have hj : j < xs.length := Nat.lt_of_succ_lt_succ h
      have hget : (x :: xs).get ⟨j + 1, h⟩ = xs.get ⟨j, hj⟩ := rfl
      have hmem : xs.get ⟨j, hj⟩ ∈ xs := List.get_mem xs j hj
      have hx : x ≠ xs.get ⟨j, hj⟩ := by
        intro hcontra
        exact (List.nodup_cons.mp hd).1 (hcontra ▸ hmem)
      rw [hget]
      have hih := ih (List.nodup_cons.mp hd).2 j hj
      simp only [List.get_eq_getElem] at hx hih ⊢
      simp [findIndex, hx, hih]

theorem matchInsertColumn_error_eq (insertColumns : List String) (values : List Expr)
    (c : Column) (e : BindError)
    (h : matchInsertColumn insertColumns values c = .error e) : e = columnNotPresentError := by
  unfold matchInsertColumn at h
  split at h
  · cases h
  · split at h
    · cases h
    · split at h
      · cases h
      · cases h; rfl

theorem matchInsertColumn_error_of_trigger (insertColumns : List String) (values : List Expr)
    (c : Column) (habsent : c.name ∉ insertColumns)
    (hnodef : c.storedExpression = nullOfType c.ty) (hnn : c.nullable = false) :
    matchInsertColumn insertColumns values c = .error columnNotPresentError := by
  unfold matchInsertColumn
  rw [(findIndex_eq_none_iff c.name insertColumns).mpr habsent]
  simp [hnodef, hnn]

theorem matchInsertColumn_full_ok (schema : List Column) (values : List Expr)
    (hnodup : (schema.map Column.name).Nodup) (hlen : values.length = schema.length) :
    mapME (matchInsertColumn (schema.map Column.name) values) schema =
      .ok (schema.zip values) := by
  have hmap : mapME (matchInsertColumn (schema.map Column.name) values) schema =
      .ok (schema.map (fun c =>
        (c, values.getD ((findIndex c.name (schema.map Column.name)).getD 0)
              (.otherExpr .Invalid)))) := by
    apply mapME_ok_of_forall
    intro c hc
    have hmem : c.name ∈ schema.map Column.name := List.mem_map_of_mem Column.name hc
    obtain ⟨k, hk⟩ : ∃ k, findIndex c.name (schema.map Column.name) = some k := by
      cases hfi : findIndex c.name (schema.map Column.name) with
      | none => exact absurd ((findIndex_eq_none_iff _ _).mp hfi) (by simp [hmem])
      | some k => exact ⟨k, rfl⟩
    unfold matchInsertColumn
    rw [hk]
    simp
  rw [hmap]
  congr 1
  apply List.ext_getElem
  · simp [hlen]
  · intro i h1 h2
    have hi : i < schema.length := by simpa using h1
    have hiv : i < values.length := by rw [hlen]; exact hi
    have hname : (schema.map Column.name).get ⟨i, by simpa using hi⟩ = schema[i].name := by
      simp
    have hfi : findIndex schema[i].name (schema.map Column.name) = some i := by
      have := findIndex_nodup_get (schema.map Column.name) hnodup i (by simpa using hi)
      rw [hname] at this
      exact this
    simp [hfi, List.getD_eq_getElem?_getD, List.getElem?_eq_getElem hiv]

theorem correctInsertValue_plain (c : Column) (v : Expr)
    (hcast : v.isCastOp = false) (hdef : v ≠ .valueDefault) :
    correctInsertValue c v = .ok v := by
  unfold correctInsertValue
  cases v with
  | constant ty isNull val => simp
  | valueDefault => exact absurd rfl hdef
  | castOp ty child => simp [Expr.isCastOp] at hcast
  | otherExpr ty => simp

theorem correctValues_plain_ok (cols : List Column) (values : List Expr)
    (hv : ∀ v ∈ values, v.isCastOp = false ∧ v ≠ .valueDefault) :
    mapME (fun p => correctInsertValue p.1 p.2) (cols.zip values) =
      .ok ((cols.zip values).map Prod.snd) := by
  apply mapME_ok_of_forall
  intro p hp
  have hsnd : p.2 ∈ values := (List.of_mem_zip hp).2
  exact correctInsertValue_plain p.1 p.2 (hv p.2 hsnd).1 (hv p.2 hsnd).2

/-- Claim C1 (amended): for every raw INSERT that binds successfully, the
statement's insert-column list is rewritten to the full schema-ordered
column list; and running `ValidateAndCorrectInsertValues` again on a
statement carrying the full schema-ordered column list is a no-op,
provided its values contain no CAST node and no DEFAULT marker (as the
counterexample shows, a value that is still a CAST after the first run —
possible when the original value was a nested cast — is corrected again or
rejected on the second run). -/
theorem insert_columns_full_and_idempotent :
    (∀ (insertColumns : List String) (rows : List (List Expr)) (schema : List Column)
        (out : List String × List (List Expr)),
      visitInsertStatement insertColumns rows schema = .ok out →
      out.1 = schema.map Column.name) ∧
    (∀ (schema : List Column) (values : List Expr),
      (schema.map Column.name).Nodup →
      values.length = schema.length →
      (∀ v ∈ values, v.isCastOp = false ∧ v ≠ .valueDefault) →
      validateAndCorrectInsertValues (schema.map Column.name) values schema = .ok values) := by
  constructor
  · intro insertColumns rows schema out h
    unfold visitInsertStatement at h
    split at h
    · simp [throw, throwThe, MonadExceptOf.throw, Bind.bind, Except.bind] at h
    · cases hrows : mapME (fun v => validateAndCorrectInsertValues insertColumns v schema) rows with
      | error e => rw [hrows] at h; cases h
      | ok rows' =>
        rw [hrows] at h
        simp [Bind.bind, Except.bind, pure, Except.pure] at h
        rw [← h]
  · intro schema values hnodup hlen hv
    cases hschema : schema with
    | nil =>
      subst hschema
      have : values = [] := List.length_eq_zero.mp (by simpa using hlen)
      subst this
      rfl
    | cons c cs =>
      subst hschema
      unfold validateAndCorrectInsertValues
      have hlen2 : values.length = ((c :: cs).map Column.name).length := by simpa using hlen
      have hlenne : ¬ ((c :: cs).map Column.name).length = 0 := by simp
      rw [if_neg (by simp only [not_not]; left; exact ⟨hlenne, hlen2⟩)]
      rw [if_neg hlenne]
      rw [matchInsertColumn_full_ok (c :: cs) values hnodup hlen]
      simp only [Bind.bind, Except.bind]
      rw [correctValues_plain_ok (c :: cs) values hv]
      congr 1
      exact List.map_snd_zip (c :: cs) values (le_of_eq hlen)

/-- Claim C1 counterexample: an INSERT whose single value is a nested cast
binds successfully — the bound statement carries the full schema-ordered
column list and a remaining inner CAST — but running
`ValidateAndCorrectInsertValues` a second time on the bound statement is
not a no-op: it rejects the remaining CAST with the cast-mismatch error. -/
theorem insert_rebind_not_noop_counterexample :
    visitInsertStatement []
        [[Expr.castOp .IntegerT (.castOp .SmallInt (.constant .SmallInt false 1))]]
        [⟨"a", .IntegerT, true, nullOfType .IntegerT⟩] =
      .ok (["a"], [[Expr.castOp .SmallInt (.constant .SmallInt false 1)]]) ∧
    validateAndCorrectInsertValues ["a"]
        [Expr.castOp .SmallInt (.constant .SmallInt false 1)]
        [⟨"a", .IntegerT, true, nullOfType .IntegerT⟩] =
      .error castTypeMismatchError :=
  ⟨rfl, rfl⟩

/-- Witness for `insert_columns_full_and_idempotent` at a concrete input. -/
theorem insert_columns_full_and_idempotent_witness :
    (["a"], [[Expr.constant .IntegerT false 5]]).1 =
      ([⟨"a", .IntegerT, true, nullOfType .IntegerT⟩] : List Column).map Column.name ∧
    validateAndCorrectInsertValues
        (([⟨"a", .IntegerT, true, nullOfType .IntegerT⟩] : List Column).map Column.name)
        [Expr.constant .IntegerT false 5]
        [⟨"a", .IntegerT, true, nullOfType .IntegerT⟩] =
      .ok [Expr.constant .IntegerT false 5] :=
  ⟨insert_columns_full_and_idempotent.1 [] [[Expr.constant .IntegerT false 5]]
      [⟨"a", .IntegerT, true, nullOfType .IntegerT⟩] _ rfl,
   insert_columns_full_and_idempotent.2 [⟨"a", .IntegerT, true, nullOfType .IntegerT⟩]
      [Expr.constant .IntegerT false 5] (by decide) (by decide) (by decide)⟩

/-- Claim C2 (amended): for an INSERT with an explicit insert-column list,
a non-nullable target column with no stored default (its stored expression
is the typed NULL) that is absent from the list makes binding fail with
SyntaxError; but when such a column's value is the DEFAULT marker, binding
does not fail — the marker is replaced by the stored typed NULL with no
not-null check (see the counterexample). -/
theorem insert_missing_nonnullable_column_fails
    (insertColumns : List String) (values : List Expr) (schema : List Column)
    (hspec : insertColumns ≠ [])
    (hlen : values.length = insertColumns.length)
    (c : Column) (hc : c ∈ schema)
    (habsent : c.name ∉ insertColumns)
    (hnodef : c.storedExpression = nullOfType c.ty)
    (hnn : c.nullable = false) :
    validateAndCorrectInsertValues insertColumns values schema =
      .error columnNotPresentError ∧
    columnNotPresentError.errorCode = some ErrorCode.SyntaxError := by
  refine ⟨?_, rfl⟩
  have hmatch : mapME (matchInsertColumn insertColumns values) schema =
      .error columnNotPresentError := by
    apply mapME_error_const
    · intro b _ e he
      exact matchInsertColumn_error_eq _ _ _ _ he
    · exact ⟨c, hc, columnNotPresentError,
        matchInsertColumn_error_of_trigger _ _ _ habsent hnodef hnn⟩
  unfold validateAndCorrectInsertValues
  have hlenne : ¬ insertColumns.length = 0 := by
    cases insertColumns with
    | nil => exact absurd rfl hspec
    | cons a as => simp
  rw [if_neg (by simp only [not_not]; left; exact ⟨hlenne, hlen⟩)]
  rw [if_neg hlenne]
  rw [hmatch]
  rfl

/-- Claim C2 counterexample: `INSERT INTO t VALUES (1, DEFAULT)` where
column 2 is non-nullable with no stored default binds successfully — the
DEFAULT marker is replaced by the stored typed NULL — instead of failing
with SyntaxError as claimed. -/
theorem insert_default_marker_counterexample :
    visitInsertStatement []
        [[Expr.constant .IntegerT false 1, Expr.valueDefault]]
        [⟨"a", .IntegerT, false, nullOfType .IntegerT⟩,
         ⟨"b", .IntegerT, false, nullOfType .IntegerT⟩] =
      .ok (["a", "b"],
        [[Expr.constant .IntegerT false 1, Expr.constant .IntegerT true 0]]) :=
  rfl

/-- Witness for `insert_missing_nonnullable_column_fails` at a concrete
input. -/
theorem insert_missing_nonnullable_column_fails_witness :
    validateAndCorrectInsertValues ["a"] [Expr.constant .IntegerT false 1]
        [⟨"a", .IntegerT, false, nullOfType .IntegerT⟩,
         ⟨"b", .IntegerT, false, nullOfType .IntegerT⟩] =
      .error columnNotPresentError ∧
    columnNotPresentError.errorCode = some ErrorCode.SyntaxError :=
  insert_missing_nonnullable_column_fails ["a"] [Expr.constant .IntegerT false 1]
    [⟨"a", .IntegerT, false, nullOfType .IntegerT⟩,
     ⟨"b", .IntegerT, false, nullOfType .IntegerT⟩]
    (by decide) (by decide)
    ⟨"b", .IntegerT, false, nullOfType .IntegerT⟩ (by decide) (by decide) (by decide) rfl

theorem unifyOrderByExpression_ok_length (selectItems : List OrderExpr) :
    ∀ (exprs out : List OrderExpr),
      unifyOrderByExpression exprs selectItems = .ok out → out.length = exprs.length := by
  intro exprs
  induction exprs with
  | nil => intro out h; cases h; rfl
  | cons e rest ih =>
    intro out h
    unfold unifyOrderByExpression at h
    cases he : unifyOrderByEntry selectItems e with
    | error err => rw [he] at h; cases h
    | ok e' =>
      rw [he] at h
      cases hrest : unifyOrderByExpression rest selectItems with
      | error err => rw [hrest] at h; cases h
      | ok rest' =>
        rw [hrest] at h
        simp only [Bind.bind, Except.bind, pure, Except.pure] at h
        cases h
        simp [ih rest' hrest]

theorem unifyOrderByExpression_ok_get (selectItems : List OrderExpr) :
    ∀ (exprs out : List OrderExpr),
      unifyOrderByExpression exprs selectItems = .ok out →
      ∀ (i : Nat) (hi : i < exprs.length) (ho : i < out.length),
        unifyOrderByEntry selectItems (exprs.get ⟨i, hi⟩) = .ok (out.get ⟨i, ho⟩) := by
  intro exprs
  induction exprs with
  | nil => intro out h i hi; simp at hi
  | cons e rest ih =>
    intro out h i hi ho
    unfold unifyOrderByExpression at h
    cases he : unifyOrderByEntry selectItems e with
    | error err => rw [he] at h; cases h
    | ok e' =>
      rw [he] at h
      cases hrest : unifyOrderByExpression rest selectItems with
      | error err => rw [hrest] at h; cases h
      | ok rest' =>
        rw [hrest] at h
        simp only [Bind.bind, Except.bind, pure, Except.pure] at h
        cases h
        match i with
        | 0 => exact he
        | Nat.succ j => exact ih rest' hrest j (Nat.lt_of_succ_lt_succ hi) (Nat.lt_of_succ_lt_succ ho)

theorem unifyOrderByExpression_error_of_mem (selectItems : List OrderExpr) :
    ∀ (exprs : List OrderExpr) (e : OrderExpr) (err : BindError),
      e ∈ exprs → unifyOrderByEntry selectItems e = .error err →
      ∃ err', unifyOrderByExpression exprs selectItems = .error err' := by
  intro exprs
  induction exprs with
  | nil => intro e err he; simp at he
  | cons x rest ih =>
    intro e err he herr
    unfold unifyOrderByExpression
    cases hx : unifyOrderByEntry selectItems x with
    | error errx => exact ⟨errx, by simp [hx, Bind.bind, Except.bind]⟩
    | ok x' =>
      rcases List.mem_cons.mp he with rfl | hrest
      · rw [hx] at herr; cases herr
      · obtain ⟨err', herr'⟩ := ih e err hrest herr
        exact ⟨err', by simp [hx, herr', Bind.bind, Except.bind]⟩

/-- Claim C3: an ORDER BY entry that is an integer or real constant `N` is
replaced by the `N`-th select-list expression (1-indexed) when
`1 ≤ N ≤ len(select_list)`, and binding fails with UndefinedColumn when
`N = 0`, `N < 0` or `N > len(select_list)`; at the statement level a
successful unification rewrites exactly such entries, and an out-of-range
entry makes the whole unification fail. -/
theorem order_by_ordinal_unification (ty : SqlTypeId)
    (hty : ty = .TinyInt ∨ ty = .SmallInt ∨ ty = .IntegerT ∨ ty = .BigInt ∨ ty = .Double)
    (n : Int) (selectItems : List OrderExpr) :
    (∀ (_ : 1 ≤ n) (_ : n ≤ (selectItems.length : Int)),
      ∃ (h : (n - 1).toNat < selectItems.length),
        unifyOrderByEntry selectItems (.valueConstant ty n) =
          .ok (selectItems.get ⟨(n - 1).toNat, h⟩)) ∧
    ((n < 1 ∨ n > (selectItems.length : Int)) →
      unifyOrderByEntry selectItems (.valueConstant ty n) =
        .error (orderByPositionError n) ∧
      (orderByPositionError n).errorCode = some ErrorCode.UndefinedColumn) ∧
    (∀ (exprs out : List OrderExpr),
      unifyOrderByExpression exprs selectItems = .ok out →
      ∀ (i : Nat) (hi : i < exprs.length) (ho : i < out.length),
        exprs.get ⟨i, hi⟩ = .valueConstant ty n →
        1 ≤ n → n ≤ (selectItems.length : Int) →
        out.get ⟨i, ho⟩ = selectItems.getD (n - 1).toNat (.otherExpr "" 0)) ∧
    (∀ (exprs : List OrderExpr),
      (.valueConstant ty n) ∈ exprs →
      (n < 1 ∨ n > (selectItems.length : Int)) →
      ∃ err, unifyOrderByExpression exprs selectItems = .error err) := by
  have hextract : extractColumnId ty n = .ok n := by
    rcases hty with rfl | rfl | rfl | rfl | rfl <;> rfl
  have hentry_ok : ∀ (_ : 1 ≤ n) (_ : n ≤ (selectItems.length : Int)),
      ∃ (h : (n - 1).toNat < selectItems.length),
        unifyOrderByEntry selectItems (.valueConstant ty n) =
          .ok (selectItems.get ⟨(n - 1).toNat, h⟩) := by
    intro h1 h2
    have hb : (n - 1).toNat < selectItems.length := by omega
    refine ⟨hb, ?_⟩
    simp only [unifyOrderByEntry]
    rw [hextract]
    simp only [Bind.bind, Except.bind]
    rw [if_neg (by omega)]
    congr 1
    exact List.getD_eq_getElem selectItems _ hb
  have hentry_err : (n < 1 ∨ n > (selectItems.length : Int)) →
      unifyOrderByEntry selectItems (.valueConstant ty n) =
        .error (orderByPositionError n) := by
    intro hrange
    simp only [unifyOrderByEntry]
    rw [hextract]
    simp only [Bind.bind, Except.bind]
    rw [if_pos (by omega)]
  refine ⟨hentry_ok, fun hrange => ⟨hentry_err hrange, rfl⟩, ?_, ?_⟩
  · intro exprs out hok i hi ho hconst h1 h2
    have := unifyOrderByExpression_ok_get selectItems exprs out hok i hi ho
    rw [hconst] at this
    obtain ⟨hb, hentry⟩ := hentry_ok h1 h2
    rw [hentry] at this
    have hgoal : selectItems.getD (n - 1).toNat (.otherExpr "" 0) =
        selectItems.get ⟨(n - 1).toNat, hb⟩ := by
      rw [List.getD_eq_getElem selectItems _ hb]
      rfl
    rw [hgoal]
    exact (Except.ok.inj this).symm
  · intro exprs hmem hrange
    exact unifyOrderByExpression_error_of_mem selectItems exprs _ _ hmem (hentry_err hrange)

/-- Witness for `order_by_ordinal_unification` at a concrete input. -/
theorem order_by_ordinal_unification_witness :
    (∃ (h : (2 - 1 : Int).toNat < [OrderExpr.otherExpr "x" 0, .otherExpr "y" 1].length),
      unifyOrderByEntry [OrderExpr.otherExpr "x" 0, .otherExpr "y" 1]
          (.valueConstant .IntegerT 2) =
        .ok ([OrderExpr.otherExpr "x" 0, .otherExpr "y" 1].get ⟨(2 - 1 : Int).toNat, h⟩)) ∧
    unifyOrderByEntry [OrderExpr.otherExpr "x" 0] (.valueConstant .IntegerT 2) =
      .error (orderByPositionError 2) ∧
    (orderByPositionError 2).errorCode = some ErrorCode.UndefinedColumn :=
  ⟨(order_by_ordinal_unification .IntegerT (by tauto) 2
      [OrderExpr.otherExpr "x" 0, .otherExpr "y" 1]).1 (by decide) (by decide),
   (order_by_ordinal_unification .IntegerT (by tauto) 2 [OrderExpr.otherExpr "x" 0]).2.1
      (by decide)⟩

/-- Claim C4 (amended): an ORDER BY constant that is neither an integer
type nor a real (Double) makes binding fail with SyntaxError (message
"non-integer constant in ORDER BY"), not UndefinedColumn. -/
theorem order_by_non_numeric_constant_fails (ty : SqlTypeId)
    (hty : ¬ (ty = .TinyInt ∨ ty = .SmallInt ∨ ty = .IntegerT ∨ ty = .BigInt ∨ ty = .Double))
    (n : Int) (selectItems : List OrderExpr) :
    unifyOrderByEntry selectItems (.valueConstant ty n) =
      .error (.binderErr "non-integer constant in ORDER BY" ErrorCode.SyntaxError) ∧
    (∀ (exprs : List OrderExpr), (.valueConstant ty n) ∈ exprs →
      ∃ err, unifyOrderByExpression exprs selectItems = .error err) := by
  have hextract : extractColumnId ty n =
      .error (.binderErr "non-integer constant in ORDER BY" ErrorCode.SyntaxError) := by
    cases ty <;> simp [extractColumnId] <;> tauto
  have hentry : unifyOrderByEntry selectItems (.valueConstant ty n) =
      .error (.binderErr "non-integer constant in ORDER BY" ErrorCode.SyntaxError) := by
    simp only [unifyOrderByEntry]
    rw [hextract]
    rfl
  exact ⟨hentry, fun exprs hmem =>
    unifyOrderByExpression_error_of_mem selectItems exprs _ _ hmem hentry⟩

/-- Claim C4 counterexample: a varchar constant in ORDER BY fails with
SyntaxError, not UndefinedColumn as claimed. -/
theorem order_by_non_numeric_counterexample :
    unifyOrderByExpression [.valueConstant .Varchar 2] [.otherExpr "x" 0] =
      .error (.binderErr "non-integer constant in ORDER BY" ErrorCode.SyntaxError) ∧
    (BindError.binderErr "non-integer constant in ORDER BY" ErrorCode.SyntaxError).errorCode ≠
      some ErrorCode.UndefinedColumn :=
  ⟨rfl, by decide⟩

/-- Witness for `order_by_non_numeric_constant_fails` at a concrete
input. -/
theorem order_by_non_numeric_constant_fails_witness :
    unifyOrderByEntry [OrderExpr.otherExpr "x" 0] (.valueConstant .Boolean 1) =
      .error (.binderErr "non-integer constant in ORDER BY" ErrorCode.SyntaxError) :=
  (order_by_non_numeric_constant_fails .Boolean (by decide) 1 [OrderExpr.otherExpr "x" 0]).1

theorem unionPairwiseCheck_error_iff :
    ∀ (ls rs : List SqlTypeId),
      ((∃ e, unionPairwiseCheck ls rs = .error e) ↔
        ∃ p ∈ ls.zip rs, p.1 ≠ p.2) ∧
      (∀ e, unionPairwiseCheck ls rs = .error e → e = unionMismatchError) := by
  intro ls
  induction ls with
  | nil =>
    intro rs
    constructor
    · simp [unionPairwiseCheck]
    · intro e h; cases h
  | cons l ls ih =>
    intro rs
    cases rs with
    | nil =>
      constructor
      · simp [unionPairwiseCheck]
      · intro e h; cases h
    | cons r rs =>
      by_cases hlr : l = r
      · subst hlr
        constructor
        · rw [show unionPairwiseCheck (l :: ls) (l :: rs) = unionPairwiseCheck ls rs by
            simp [unionPairwiseCheck]]
          rw [(ih rs).1]
          simp
        · intro e h
          rw [show unionPairwiseCheck (l :: ls) (l :: rs) = unionPairwiseCheck ls rs by
            simp [unionPairwiseCheck]] at h
          exact (ih rs).2 e h
      · have hcheck : unionPairwiseCheck (l :: ls) (r :: rs) = .error unionMismatchError := by
          simp [unionPairwiseCheck, hlr]
        constructor
        · rw [hcheck]
          constructor
          · intro _
            exact ⟨(l, r), by simp, hlr⟩
          · intro _
            exact ⟨unionMismatchError, rfl⟩
        · intro e h
          rw [hcheck] at h
          cases h
          rfl

/-- Claim C6: the UNION check fails (always with the DatatypeMismatch
error "Mismatched schemas in union") if and only if the two sides'
select-list column counts differ or some positional pair of result types
differ; when the counts and all positional pairs agree it succeeds. -/
theorem union_type_check (leftTypes rightTypes : List SqlTypeId) :
    ((∃ e, unionCompatibilityCheck leftTypes rightTypes = .error e) ↔
      (leftTypes.length ≠ rightTypes.length ∨
        ∃ p ∈ leftTypes.zip rightTypes, p.1 ≠ p.2)) ∧
    (∀ e, unionCompatibilityCheck leftTypes rightTypes = .error e →
      e = unionMismatchError ∧ e.errorCode = some ErrorCode.DatatypeMismatch) ∧
    (leftTypes.length = rightTypes.length →
      (∀ p ∈ leftTypes.zip rightTypes, p.1 = p.2) →
      unionCompatibilityCheck leftTypes rightTypes = .ok ()) := by
  by_cases hlen : leftTypes.length = rightTypes.length
  · have hunfold : unionCompatibilityCheck leftTypes rightTypes =
        unionPairwiseCheck leftTypes rightTypes := by
      simp [unionCompatibilityCheck, hlen]
    refine ⟨?_, ?_, ?_⟩
    · rw [hunfold, (unionPairwiseCheck_error_iff leftTypes rightTypes).1]
      constructor
      · exact fun h => Or.inr h
      · rintro (h | h)
        · exact absurd hlen h
        · exact h
    · intro e h
      rw [hunfold] at h
      have := (unionPairwiseCheck_error_iff leftTypes rightTypes).2 e h
      exact ⟨this, by rw [this]; rfl⟩
    · intro _ hall
      rw [hunfold]
      cases hres : unionPairwiseCheck leftTypes rightTypes with
      | ok u => cases u; rfl
      | error e =>
        obtain ⟨p, hp, hne⟩ :=
          (unionPairwiseCheck_error_iff leftTypes rightTypes).1.mp ⟨e, hres⟩
        exact absurd (hall p hp) hne
  · have hunfold : unionCompatibilityCheck leftTypes rightTypes =
        .error unionMismatchError := by
      simp [unionCompatibilityCheck, hlen]
    refine ⟨?_, ?_, ?_⟩
    · rw [hunfold]
      constructor
      · intro _
        exact Or.inl hlen
      · intro _
        exact ⟨unionMismatchError, rfl⟩
    · intro e h
      rw [hunfold] at h
      cases h
      exact ⟨rfl, rfl⟩
    · intro h
      exact absurd h hlen

/-- Witness for `union_type_check` at a concrete input. -/
theorem union_type_check_witness :
    unionCompatibilityCheck [SqlTypeId.IntegerT, .Varchar] [SqlTypeId.IntegerT, .Varchar] =
      .ok () :=
  (union_type_check [SqlTypeId.IntegerT, .Varchar] [SqlTypeId.IntegerT, .Varchar]).2.2
    (by decide) (by decide)

/-- Claim C5: WITH-clause column-alias reconciliation fails with
SchemaMismatch when more aliases than select columns are given, with both
exact counts in the message; with fewer aliases, the remaining column
names are synthesized from each column's natural expression name,
defaulting to the placeholder name "?column?" when that name is empty. -/
theorem cte_alias_reconciliation (cteName : String)
    (columnAliases columnNames : List String) (firstSerial : Nat) :
    (columnAliases.length > columnNames.length →
      reconcileCteAliases cteName columnAliases columnNames firstSerial =
        .error (cteAliasCountError cteName columnNames.length columnAliases.length) ∧
      (∃ s1 s2 s3,
        cteAliasCountError cteName columnNames.length columnAliases.length =
          .binderErr (s1 ++ toString columnNames.length ++ s2 ++
              toString columnAliases.length ++ s3)
            ErrorCode.SchemaMismatch)) ∧
    (columnAliases.length ≤ columnNames.length →
      ∃ out, reconcileCteAliases cteName columnAliases columnNames firstSerial = .ok out ∧
        out.length = columnNames.length ∧
        (∀ i, i < columnAliases.length →
          (out.getD i ("", 0)).1 = columnAliases.getD i "") ∧
        (∀ i, columnAliases.length ≤ i → i < columnNames.length →
          (out.getD i ("", 0)).1 =
            (if columnNames.getD i "" = "" then "?column?" else columnNames.getD i ""))) := by
  constructor
  · intro hgt
    refine ⟨?_, ?_⟩
    · simp [reconcileCteAliases, hgt]
    · exact ⟨"WITH query " ++ cteName ++ " has ", " columns available but ", " specified", rfl⟩
  · intro hle
    have hok : reconcileCteAliases cteName columnAliases columnNames firstSerial =
        .ok (((List.range columnAliases.length).map
                (fun i => (columnAliases.getD i "", firstSerial + i))) ++
             ((List.range' columnAliases.length
                  (columnNames.length - columnAliases.length)).map
                (fun i =>
                  let n := columnNames.getD i ""
                  (if n = "" then "?column?" else n, firstSerial + i)))) := by
      simp only [reconcileCteAliases]
      rw [if_neg (by omega)]
    refine ⟨_, hok, ?_, ?_, ?_⟩
    · simp
      omega
    · intro i hi
      rw [List.getD_append _ _ _ _ (by simpa using hi)]
      rw [List.getD_eq_getElem _ _ (by simpa using hi)]
      simp [List.getElem_range]
    · intro i hge hlt
      rw [List.getD_append_right _ _ _ _ (by simpa using hge)]
      have hbound : i - (List.map (fun i => (columnAliases.getD i "", firstSerial + i))
          (List.range columnAliases.length)).length <
          ((List.range' columnAliases.length
              (columnNames.length - columnAliases.length)).map
            (fun i =>
              let n := columnNames.getD i ""
              (if n = "" then "?column?" else n, firstSerial + i))).length := by
        simp
        omega
      rw [List.getD_eq_getElem _ _ hbound]
      simp only [List.getElem_map, List.length_map, List.length_range]
      have hidx : columnAliases.length + 1 * (i - columnAliases.length) = i := by omega
      rw [List.getElem_range']
      rw [hidx]

/-- Witness for `cte_alias_reconciliation` at concrete inputs. -/
theorem cte_alias_reconciliation_witness :
    (reconcileCteAliases "c" ["x", "y"] ["a"] 7 =
      .error (cteAliasCountError "c" 1 2) ∧
      (∃ s1 s2 s3, cteAliasCountError "c" 1 2 =
        .binderErr (s1 ++ toString (1 : Nat) ++ s2 ++ toString (2 : Nat) ++ s3)
          ErrorCode.SchemaMismatch)) ∧
    (∃ out, reconcileCteAliases "c" ["x"] ["a", "", "b"] 7 = .ok out ∧
      out.length = 3 ∧
      (∀ i, i < 1 → (out.getD i ("", 0)).1 = ["x"].getD i "") ∧
      (∀ i, 1 ≤ i → i < 3 →
        (out.getD i ("", 0)).1 =
          (if ["a", "", "b"].getD i "" = "" then "?column?"
           else ["a", "", "b"].getD i ""))) :=
  ⟨(cte_alias_reconciliation "c" ["x", "y"] ["a"] 7).1 (by decide),
   (cte_alias_reconciliation "c" ["x"] ["a", "", "b"] 7).2 (by decide)⟩

/-- Claim C7 (amended): a subquery operand is eligible for decorrelation
rewriting exactly when it performs no aggregation, or it aggregates —
via a GROUP BY or a select list consisting only of aggregates — and every
correlated predicate among its WHERE conjuncts is a top-level equality
with a `COLUMN_VALUE` child on one side and the other side at the
subquery's own depth; a subquery failing the conformance test makes the
transform fail with the not-implemented error, while a select list mixing
aggregate and non-aggregate columns without GROUP BY makes the
aggregation check itself fail with the mixing error (see the
counterexample). -/
theorem subselect_decorrelation_eligibility
    (cols : List PExpr) (distinct : Bool) (fromC : Option Node)
    (whereC : Option PExpr) (groupBy : Option (List PExpr)) (having : Option PExpr)
    (orderBy : Option (List PExpr × List OrderType)) (limitC : Option LimitClause)
    (unionC : Option Node) (depth : Int) :
    (isSupportedSubSelect (.selectStmt cols distinct fromC whereC groupBy having
        orderBy limitC unionC depth) = .ok true ↔
      (performsAggregation cols groupBy.isSome = false ∨
        (performsAggregation cols groupBy.isSome = true ∧
          (!groupBy.isSome && cols.any PExpr.containsAggregate &&
            cols.any (fun e => !e.containsAggregate)) = false ∧
          (splitPredicates whereC).all (fun pred =>
            if pred.depthOf < depth then correlatedPredicateConforms depth pred
            else true) = true))) ∧
    (isSupportedSubSelect (.selectStmt cols distinct fromC whereC groupBy having
        orderBy limitC unionC depth) = .ok false ↔
      (performsAggregation cols groupBy.isSome = true ∧
        (!groupBy.isSome && cols.any PExpr.containsAggregate &&
          cols.any (fun e => !e.containsAggregate)) = false ∧
        (splitPredicates whereC).all (fun pred =>
          if pred.depthOf < depth then correlatedPredicateConforms depth pred
          else true) = false)) ∧
    ((!groupBy.isSome && cols.any PExpr.containsAggregate &&
        cols.any (fun e => !e.containsAggregate)) = true →
      isSupportedSubSelect (.selectStmt cols distinct fromC whereC groupBy having
        orderBy limitC unionC depth) = .error mixedAggregateError) ∧
    (isSupportedSubSelect (.selectStmt cols distinct fromC whereC groupBy having
        orderBy limitC unionC depth) = .ok false →
      generateSubqueryCheck (.selectStmt cols distinct fromC whereC groupBy having
        orderBy limitC unionC depth) = .error (.notImplemented "Sub-select not supported")) := by
  have hgen : isSupportedSubSelect (.selectStmt cols distinct fromC whereC groupBy having
        orderBy limitC unionC depth) = .ok false →
      generateSubqueryCheck (.selectStmt cols distinct fromC whereC groupBy having
        orderBy limitC unionC depth) = .error (.notImplemented "Sub-select not supported") := by
    intro hb
    unfold generateSubqueryCheck
    rw [hb]
    rfl
  cases hgb : groupBy with
  | some g =>
    subst hgb
    have hsup : isSupportedSubSelect (.selectStmt cols distinct fromC whereC (some g) having
        orderBy limitC unionC depth) =
        .ok ((splitPredicates whereC).all (fun pred =>
          if pred.depthOf < depth then correlatedPredicateConforms depth pred else true)) :=
      rfl
    refine ⟨?_, ?_, ?_, hgen⟩
    · rw [hsup]
      cases hall : (splitPredicates whereC).all (fun pred =>
          if pred.depthOf < depth then correlatedPredicateConforms depth pred else true) <;>
        simp [performsAggregation]
    · rw [hsup]
      cases hall : (splitPredicates whereC).all (fun pred =>
          if pred.depthOf < depth then correlatedPredicateConforms depth pred else true) <;>
        simp [performsAggregation]
    · intro hmix
      simp at hmix
  | none =>
    subst hgb
    cases hagg : cols.any PExpr.containsAggregate with
    | false =>
      have hsup : isSupportedSubSelect (.selectStmt cols distinct fromC whereC none having
          orderBy limitC unionC depth) = .ok true := by
        simp only [isSupportedSubSelect, requireAggregation, Option.isSome_none,
          Bool.false_eq_true, if_false]
        rw [hagg]
        rfl
      refine ⟨?_, ?_, ?_, hgen⟩
      · rw [hsup]
        simp [performsAggregation, hagg]
      · rw [hsup]
        simp [performsAggregation, hagg]
      · intro hmix
        simp at hmix
    | true =>
      cases hother : cols.any (fun e => !e.containsAggregate) with
      | true =>
        have hsup : isSupportedSubSelect (.selectStmt cols distinct fromC whereC none having
            orderBy limitC unionC depth) = .error mixedAggregateError := by
          simp only [isSupportedSubSelect, requireAggregation, Option.isSome_none,
            Bool.false_eq_true, if_false]
          rw [hagg, hother]
          rfl
        refine ⟨?_, ?_, ?_, hgen⟩
        · rw [hsup]
          simp [performsAggregation, hagg, hother]
        · rw [hsup]
          simp [performsAggregation, hagg, hother]
        · intro _
          exact hsup
      | false =>
        have hsup : isSupportedSubSelect (.selectStmt cols distinct fromC whereC none having
            orderBy limitC unionC depth) =
            .ok ((splitPredicates whereC).all (fun pred =>
              if pred.depthOf < depth then correlatedPredicateConforms depth pred
              else true)) := by
          simp only [isSupportedSubSelect, requireAggregation, Option.isSome_none,
            Bool.false_eq_true, if_false]
          rw [hagg, hother]
          rfl
        refine ⟨?_, ?_, ?_, hgen⟩
        · rw [hsup]
          cases hall : (splitPredicates whereC).all (fun pred =>
              if pred.depthOf < depth then correlatedPredicateConforms depth pred else true) <;>
            simp [performsAggregation, hagg, hother, hall]
        · rw [hsup]
          cases hall : (splitPredicates whereC).all (fun pred =>
              if pred.depthOf < depth then correlatedPredicateConforms depth pred else true) <;>
            simp [performsAggregation, hagg, hother, hall]
        · intro hmix
          simp at hmix

/-- Claim C7 counterexample: a subquery whose select list mixes an
aggregate and a non-aggregate column without GROUP BY and whose WHERE
clause is empty is eligible by the claim's criterion (it aggregates and
has no correlated predicate), yet the transform fails — and with the
optimizer's mixing error, not a not-implemented error. -/
theorem subselect_eligibility_counterexample :
    eligibleSpec (.selectStmt [PExpr.node .aggregateFn 0 [], PExpr.node .columnValue 0 []]
        false none none none none none none none 0) = true ∧
    generateSubqueryCheck (.selectStmt [PExpr.node .aggregateFn 0 [], PExpr.node .columnValue 0 []]
        false none none none none none none none 0) = .error mixedAggregateError ∧
    mixedAggregateError ≠ BindError.notImplemented "Sub-select not supported" :=
  ⟨rfl, rfl, by decide⟩

/-- Witness for `subselect_decorrelation_eligibility` at concrete inputs. -/
theorem subselect_decorrelation_eligibility_witness :
    isSupportedSubSelect (.selectStmt [PExpr.node .aggregateFn 1 []] false none
        (some (.node .compareEqual 0
          [.node .columnValue 0 [], .node .otherType 1 []])) none none none none none 1) =
      .ok true ∧
    generateSubqueryCheck (.selectStmt [PExpr.node .aggregateFn 1 []] false none
        (some (.node .compareNotEqual 0
          [.node .columnValue 0 [], .node .otherType 1 []])) none none none none none 1) =
      .error (.notImplemented "Sub-select not supported") :=
  ⟨(subselect_decorrelation_eligibility [PExpr.node .aggregateFn 1 []] false none
      (some (.node .compareEqual 0 [.node .columnValue 0 [], .node .otherType 1 []]))
      none none none none none 1).1.mpr (by decide),
   (subselect_decorrelation_eligibility [PExpr.node .aggregateFn 1 []] false none
      (some (.node .compareNotEqual 0 [.node .columnValue 0 [], .node .otherType 1 []]))
      none none none none none 1).2.2.2 rfl⟩

/-- Claim C8 (amended): a comparison (equal, not-equal, less/greater,
with or without -or-equal) both of whose children are row subqueries
always makes plan construction fail — but the failure is the
not-implemented error thrown by `NOT_IMPLEMENTED_EXCEPTION` (the same
exception kind as unsupported sub-selects), not FeatureNotSupported. -/
theorem comparison_between_subqueries_fails (t : PExprType)
    (ht : t ∈ binaryComparisonTypes) :
    visitComparisonCheck t .rowSubquery .rowSubquery =
      .error (.notImplemented "Comparisons between sub-selects are not supported") ∧
    (BindError.notImplemented "Comparisons between sub-selects are not supported").errorCode =
      none := by
  have hne : t ≠ .compareIn := by
    intro h
    subst h
    simp [binaryComparisonTypes] at ht
  refine ⟨?_, rfl⟩
  unfold visitComparisonCheck
  rw [if_neg hne, if_pos ht, if_pos ⟨rfl, rfl⟩]

/-- Claim C8 counterexample: the both-subquery comparison failure is a
`NotImplementedException` (which carries no `common::ErrorCode`), not a
FeatureNotSupported error: it differs from every
`BINDER_EXCEPTION(..., ERRCODE_FEATURE_NOT_SUPPORTED)`. -/
theorem comparison_between_subqueries_counterexample :
    visitComparisonCheck .compareEqual .rowSubquery .rowSubquery =
      .error (.notImplemented "Comparisons between sub-selects are not supported") ∧
    (BindError.notImplemented "Comparisons between sub-selects are not supported").errorCode ≠
      some ErrorCode.FeatureNotSupported ∧
    (∀ msg, BindError.notImplemented "Comparisons between sub-selects are not supported" ≠
      .binderErr msg ErrorCode.FeatureNotSupported) :=
  ⟨rfl, by decide, fun msg h => BindError.noConfusion h⟩

/-- Witness for `comparison_between_subqueries_fails` at a concrete
input. -/
theorem comparison_between_subqueries_fails_witness :
    visitComparisonCheck .compareLessThan .rowSubquery .rowSubquery =
      .error (.notImplemented "Comparisons between sub-selects are not supported") ∧
    (BindError.notImplemented "Comparisons between sub-selects are not supported").errorCode =
      none :=
  comparison_between_subqueries_fails .compareLessThan (by decide)

theorem chainRest_spec (rs : List Node) (ts : List OpTree)
    (h : List.Forall₂ (fun n t => transform n = .ok t) rs ts) :
    ∀ (acc : OpTree), chainRest acc rs = .ok (ts.foldl OpTree.innerJoin acc) := by
  induction h with
  | nil => intro acc; rfl
  | cons hpair _ ih =>
    intro acc
    show (do
      let t ← transform _
      chainRest (OpTree.innerJoin acc t) _) = _
    rw [hpair]
    show chainRest (OpTree.innerJoin acc _) _ = _
    rw [ih (OpTree.innerJoin acc _)]
    rfl

/-- Claim C9: a FROM list of more than one table reference with no
explicit join syntax is lowered to a left-deep chain of inner joins: the
first two tables join at the bottom and each further table in list order
becomes the right child of a new inner join whose left child is the chain
built so far. -/
theorem implicit_join_left_deep_chain (refs : List Node) (r : Node) (rs : List Node)
    (href : refs = r :: rs) (hrs : rs ≠ [])
    (t0 : OpTree) (ts : List OpTree)
    (h0 : transform r = .ok t0)
    (hts : List.Forall₂ (fun n t => transform n = .ok t) rs ts) :
    transform (.listRef refs) = .ok (leftDeepChainSpec t0 ts) := by
  subst href
  cases rs with
  | nil => exact absurd rfl hrs
  | cons r1 rest =>
    show (do
      let t0 ← transform r
      chainRest t0 (r1 :: rest)) = _
    rw [h0]
    show chainRest t0 (r1 :: rest) = _
    rw [chainRest_spec (r1 :: rest) ts hts t0]
    rfl

/-- Witness for `implicit_join_left_deep_chain` at a concrete input. -/
theorem implicit_join_left_deep_chain_witness :
    transform (.listRef [.baseRef "a", .baseRef "b", .baseRef "c"]) =
      .ok (leftDeepChainSpec (.get "a") [.get "b", .get "c"]) :=
  implicit_join_left_deep_chain [.baseRef "a", .baseRef "b", .baseRef "c"]
    (.baseRef "a") [.baseRef "b", .baseRef "c"] rfl (by simp)
    (.get "a") [.get "b", .get "c"] rfl
    (List.Forall₂.cons rfl (List.Forall₂.cons rfl List.Forall₂.nil))

theorem buildFilter_containsLimit (preds : List PExpr) (c : OpTree) :
    (buildFilter preds c).containsLimit = c.containsLimit := by
  unfold buildFilter
  split <;> rfl

theorem buildFilter_offsets (preds : List PExpr) (c : OpTree) :
    (buildFilter preds c).limitOffsetsNonneg = c.limitOffsetsNonneg := by
  unfold buildFilter
  split <;> rfl

theorem buildAggregate_ok_inv (cols : List PExpr) (distinct : Bool)
    (groupBy : Option (List PExpr)) (having : Option PExpr) (req : Bool)
    (c out : OpTree)
    (h : buildAggregate cols distinct groupBy having req c = .ok out) :
    out.containsLimit = c.containsLimit ∧
    out.limitOffsetsNonneg = c.limitOffsetsNonneg := by
  cases groupBy with
  | none =>
    simp only [buildAggregate] at h
    split at h
    · cases h
      exact ⟨rfl, rfl⟩
    · split at h
      · cases h
        exact ⟨rfl, rfl⟩
      · cases h
        exact ⟨rfl, rfl⟩
  | some gcols =>
    simp only [buildAggregate] at h
    split at h
    · cases hchk : checkConjunctivePredicates (splitPredicates having) with
      | error e =>
        rw [hchk] at h
        simp only [Bind.bind, Except.bind] at h
        cases h
      | ok u =>
        rw [hchk] at h
        simp only [Bind.bind, Except.bind, pure, Except.pure] at h
        cases h
        split <;> exact ⟨rfl, rfl⟩
    · split at h
      · cases h
        exact ⟨rfl, rfl⟩
      · cases h
        exact ⟨rfl, rfl⟩

theorem buildLimit_absent (orderBy : Option (List PExpr × List OrderType))
    (limitC : Option LimitClause) (c : OpTree)
    (h : limitC = none ∨ ∃ lc, limitC = some lc ∧ lc.limit = -1) :
    buildLimit orderBy limitC c = c := by
  rcases h with rfl | ⟨lc, rfl, hlc⟩
  · rfl
  · simp [buildLimit, hlc]

theorem buildLimit_offsets (orderBy : Option (List PExpr × List OrderType))
    (limitC : Option LimitClause) (c : OpTree) :
    (buildLimit orderBy limitC c).limitOffsetsNonneg = c.limitOffsetsNonneg := by
  cases limitC with
  | none => rfl
  | some lc =>
    by_cases hl : lc.limit = -1
    · simp [buildLimit, hl]
    · have heq : buildLimit orderBy (some lc) c =
          .limitOp (max lc.offset 0) lc.limit
            (match orderBy with | some ob => ob.1 | none => [])
            (match orderBy with | some ob => ob.2.map toSortDirection | none => []) c := by
        simp [buildLimit, hl]
      rw [heq]
      show (decide (0 ≤ max lc.offset 0) && c.limitOffsetsNonneg) = c.limitOffsetsNonneg
      rw [decide_eq_true (le_max_right lc.offset 0)]
      exact Bool.true_and _

theorem foldl_innerJoin_containsLimit (ts : List OpTree) :
    ∀ (acc : OpTree), (ts.foldl OpTree.innerJoin acc).containsLimit =
      (acc.containsLimit || ts.any OpTree.containsLimit) := by
  induction ts with
  | nil => intro acc; simp
  | cons t ts ih =>
    intro acc
    show ((ts.foldl OpTree.innerJoin (acc.innerJoin t)).containsLimit) = _
    rw [ih (acc.innerJoin t)]
    show ((acc.containsLimit || t.containsLimit) || ts.any OpTree.containsLimit) = _
    simp [Bool.or_assoc]

theorem foldl_innerJoin_offsets (ts : List OpTree) :
    ∀ (acc : OpTree), (ts.foldl OpTree.innerJoin acc).limitOffsetsNonneg =
      (acc.limitOffsetsNonneg && ts.all OpTree.limitOffsetsNonneg) := by
  induction ts with
  | nil => intro acc; simp
  | cons t ts ih =>
    intro acc
    show ((ts.foldl OpTree.innerJoin (acc.innerJoin t)).limitOffsetsNonneg) = _
    rw [ih (acc.innerJoin t)]
    show ((acc.limitOffsetsNonneg && t.limitOffsetsNonneg) && ts.all OpTree.limitOffsetsNonneg) = _
    simp [Bool.and_assoc]

theorem goLimitFree_eq_all : ∀ (l : List Node),
    Node.limitFree.goLimitFree l = l.all Node.limitFree := by
  intro l
  induction l with
  | nil => rfl
  | cons r rs ih =>
    show (r.limitFree && Node.limitFree.goLimitFree rs) = _
    rw [ih]
    rfl

theorem chainRest_ok_inv :
    ∀ (l : List Node) (acc t : OpTree), chainRest acc l = .ok t →
      ∃ ts, List.Forall₂ (fun n t' => transform n = .ok t') l ts ∧
        t = ts.foldl OpTree.innerJoin acc := by
  intro l
  induction l with
  | nil =>
    intro acc t h
    cases h
    exact ⟨[], List.Forall₂.nil, rfl⟩
  | cons r rest ih =>
    intro acc t h
    cases hr : transform r with
    | error e =>
      exfalso
      have : chainRest acc (r :: rest) = .error e := by
        show (do
          let tr ← transform r
          chainRest (OpTree.innerJoin acc tr) rest) = _
        rw [hr]
        rfl
      rw [this] at h
      cases h
    | ok tr =>
      have hrest : chainRest (OpTree.innerJoin acc tr) rest = .ok t := by
        have : chainRest acc (r :: rest) = chainRest (OpTree.innerJoin acc tr) rest := by
          show (do
            let tr ← transform r
            chainRest (OpTree.innerJoin acc tr) rest) = _
          rw [hr]
          rfl
        rw [← this]
        exact h
      obtain ⟨ts, hts, hfold⟩ := ih (OpTree.innerJoin acc tr) t hrest
      exact ⟨tr :: ts, List.Forall₂.cons hr hts, hfold⟩

theorem selectChainNoUnion_inv
    (cols : List PExpr) (distinct : Bool) (whereC : Option PExpr)
    (groupBy : Option (List PExpr)) (having : Option PExpr)
    (orderBy : Option (List PExpr × List OrderType)) (limitC : Option LimitClause)
    (base t : OpTree)
    (ht : Bind.bind (checkConjunctivePredicates (splitPredicates whereC)) (fun _ =>
        Bind.bind (requireAggregation cols groupBy.isSome) (fun req =>
          Bind.bind (buildAggregate cols distinct groupBy having req
              (buildFilter (splitPredicates whereC) base)) (fun afterAgg =>
            pure (buildLimit orderBy limitC afterAgg)))) = .ok t) :
    ∃ req afterAgg,
      requireAggregation cols groupBy.isSome = .ok req ∧
      buildAggregate cols distinct groupBy having req
        (buildFilter (splitPredicates whereC) base) = .ok afterAgg ∧
      t = buildLimit orderBy limitC afterAgg := by
  simp only [Bind.bind, Except.bind] at ht
  split at ht
  · cases ht
  · split at ht
    · cases ht
    · rename_i req hreq
      split at ht
      · cases ht
      · rename_i afterAgg hagg
        simp only [pure, Except.pure] at ht
        cases ht
        exact ⟨req, afterAgg, hreq, hagg, rfl⟩

theorem selectChainUnion_inv
    (cols : List PExpr) (distinct : Bool) (whereC : Option PExpr)
    (groupBy : Option (List PExpr)) (having : Option PExpr)
    (orderBy : Option (List PExpr × List OrderType)) (limitC : Option LimitClause)
    (u : Node) (base t : OpTree)
    (ht : Bind.bind (checkConjunctivePredicates (splitPredicates whereC)) (fun _ =>
        Bind.bind (requireAggregation cols groupBy.isSome) (fun req =>
          Bind.bind (buildAggregate cols distinct groupBy having req
              (buildFilter (splitPredicates whereC) base)) (fun afterAgg =>
            Bind.bind (transform u) (fun right =>
              pure (OpTree.unionOp (buildLimit orderBy limitC afterAgg) right))))) = .ok t) :
    ∃ req afterAgg tu,
      requireAggregation cols groupBy.isSome = .ok req ∧
      buildAggregate cols distinct groupBy having req
        (buildFilter (splitPredicates whereC) base) = .ok afterAgg ∧
      transform u = .ok tu ∧
      t = .unionOp (buildLimit orderBy limitC afterAgg) tu := by
  simp only [Bind.bind, Except.bind] at ht
  split at ht
  · cases ht
  · split at ht
    · cases ht
    · rename_i req hreq
      split at ht
      · cases ht
      · rename_i afterAgg hagg
        split at ht
        · cases ht
        · rename_i tu hu
          simp only [pure, Except.pure] at ht
          cases ht
          exact ⟨req, afterAgg, tu, hreq, hagg, hu, rfl⟩

theorem transform_selectStmt_inv
    (cols : List PExpr) (distinct : Bool) (fromC : Option Node) (whereC : Option PExpr)
    (groupBy : Option (List PExpr)) (having : Option PExpr)
    (orderBy : Option (List PExpr × List OrderType)) (limitC : Option LimitClause)
    (unionC : Option Node) (depth : Int) (t : OpTree)
    (ht : transform (.selectStmt cols distinct fromC whereC groupBy having orderBy
        limitC unionC depth) = .ok t) :
    ∃ base req afterAgg,
      (match fromC with
       | some tr => transform tr
       | none => (pure OpTree.emptyGet : Except BindError OpTree)) = .ok base ∧
      requireAggregation cols groupBy.isSome = .ok req ∧
      buildAggregate cols distinct groupBy having req
        (buildFilter (splitPredicates whereC) base) = .ok afterAgg ∧
      ((unionC = none ∧ t = buildLimit orderBy limitC afterAgg) ∨
       (∃ u tu, unionC = some u ∧ transform u = .ok tu ∧
         t = .unionOp (buildLimit orderBy limitC afterAgg) tu)) := by
  cases fromC with
  | none =>
    cases unionC with
    | none =>
      have hred : transform (.selectStmt cols distinct none whereC groupBy having orderBy
          limitC none depth) =
          Bind.bind (checkConjunctivePredicates (splitPredicates whereC)) (fun _ =>
            Bind.bind (requireAggregation cols groupBy.isSome) (fun req =>
              Bind.bind (buildAggregate cols distinct groupBy having req
                  (buildFilter (splitPredicates whereC) OpTree.emptyGet)) (fun afterAgg =>
                pure (buildLimit orderBy limitC afterAgg)))) := rfl
      rw [hred] at ht
      obtain ⟨req, afterAgg, h1, h2, h3⟩ :=
        selectChainNoUnion_inv cols distinct whereC groupBy having orderBy limitC
          OpTree.emptyGet t ht
      exact ⟨OpTree.emptyGet, req, afterAgg, rfl, h1, h2, Or.inl ⟨rfl, h3⟩⟩
    | some u =>
      have hred : transform (.selectStmt cols distinct none whereC groupBy having orderBy
          limitC (some u) depth) =
          Bind.bind (checkConjunctivePredicates (splitPredicates whereC)) (fun _ =>
            Bind.bind (requireAggregation cols groupBy.isSome) (fun req =>
              Bind.bind (buildAggregate cols distinct groupBy having req
                  (buildFilter (splitPredicates whereC) OpTree.emptyGet)) (fun afterAgg =>
                Bind.bind (transform u) (fun right =>
                  pure (OpTree.unionOp (buildLimit orderBy limitC afterAgg) right))))) := rfl
      rw [hred] at ht
      obtain ⟨req, afterAgg, tu, h1, h2, h3, h4⟩ :=
        selectChainUnion_inv cols distinct whereC groupBy having orderBy limitC u
          OpTree.emptyGet t ht
      exact ⟨OpTree.emptyGet, req, afterAgg, rfl, h1, h2, Or.inr ⟨u, tu, rfl, h3, h4⟩⟩
  | some tr =>
    cases unionC with
    | none =>
      have hred : transform (.selectStmt cols distinct (some tr) whereC groupBy having orderBy
          limitC none depth) =
          Bind.bind (transform tr) (fun base =>
            Bind.bind (checkConjunctivePredicates (splitPredicates whereC)) (fun _ =>
              Bind.bind (requireAggregation cols groupBy.isSome) (fun req =>
                Bind.bind (buildAggregate cols distinct groupBy having req
                    (buildFilter (splitPredicates whereC) base)) (fun afterAgg =>
                  pure (buildLimit orderBy limitC afterAgg))))) := rfl
      rw [hred] at ht
      cases htr : transform tr with
      | error e =>
        rw [htr] at ht
        simp only [Bind.bind, Except.bind] at ht
        cases ht
      | ok base =>
        rw [htr] at ht
        simp only [Bind.bind, Except.bind] at ht
        obtain ⟨req, afterAgg, h1, h2, h3⟩ :=
          selectChainNoUnion_inv cols distinct whereC groupBy having orderBy limitC
            base t (by simpa [Bind.bind, Except.bind] using ht)
        exact ⟨base, req, afterAgg, htr, h1, h2, Or.inl ⟨rfl, h3⟩⟩
    | some u =>
      have hred : transform (.selectStmt cols distinct (some tr) whereC groupBy having orderBy
          limitC (some u) depth) =
          Bind.bind (transform tr) (fun base =>
            Bind.bind (checkConjunctivePredicates (splitPredicates whereC)) (fun _ =>
              Bind.bind (requireAggregation cols groupBy.isSome) (fun req =>
                Bind.bind (buildAggregate cols distinct groupBy having req
                    (buildFilter (splitPredicates whereC) base)) (fun afterAgg =>
                  Bind.bind (transform u) (fun right =>
                    pure (OpTree.unionOp (buildLimit orderBy limitC afterAgg) right)))))) := rfl
      rw [hred] at ht
      cases htr : transform tr with
      | error e =>
        rw [htr] at ht
        simp only [Bind.bind, Except.bind] at ht
        cases ht
      | ok base =>
        rw [htr] at ht
        simp only [Bind.bind, Except.bind] at ht
        obtain ⟨req, afterAgg, tu, h1, h2, h3, h4⟩ :=
          selectChainUnion_inv cols distinct whereC groupBy having orderBy limitC u
            base t (by simpa [Bind.bind, Except.bind] using ht)
        exact ⟨base, req, afterAgg, htr, h1, h2, Or.inr ⟨u, tu, rfl, h3, h4⟩⟩

theorem forall2_transform_all (p : OpTree → Bool) :
    ∀ (l : List Node) (ts : List OpTree),
      List.Forall₂ (fun n t => transform n = .ok t) l ts →
      (∀ n' t', n' ∈ l → transform n' = .ok t' → p t' = true) →
      ts.all p = true := by
  intro l ts h
  induction h with
  | nil => intro _; rfl
  | cons hpair hrest ih =>
    rename_i n' t' l' ts'
    intro hp
    have h1 : p t' = true := hp n' t' (List.mem_cons_self _ _) hpair
    have h2 : ts'.all p = true :=
      ih (fun a b ha hb => hp a b (List.mem_cons_of_mem _ ha) hb)
    simp [List.all_cons, h1, h2]

theorem forall2_transform_any_false (p : OpTree → Bool) :
    ∀ (l : List Node) (ts : List OpTree),
      List.Forall₂ (fun n t => transform n = .ok t) l ts →
      (∀ n' t', n' ∈ l → transform n' = .ok t' → p t' = false) →
      ts.any p = false := by
  intro l ts h
  induction h with
  | nil => intro _; rfl
  | cons hpair hrest ih =>
    rename_i n' t' l' ts'
    intro hp
    have h1 : p t' = false := hp n' t' (List.mem_cons_self _ _) hpair
    have h2 : ts'.any p = false :=
      ih (fun a b ha hb => hp a b (List.mem_cons_of_mem _ ha) hb)
    simp [List.any_cons, h1, h2]

theorem limitFree_matchers (limitC : Option LimitClause)
    (h : (match limitC with
          | none => true
          | some lc => decide (lc.limit = -1)) = true) :
    limitC = none ∨ ∃ lc, limitC = some lc ∧ lc.limit = -1 := by
  cases limitC with
  | none => exact Or.inl rfl
  | some lc =>
    simp at h
    exact Or.inr ⟨lc, rfl, h⟩

theorem selectLimitFreeParts_spec (limitC : Option LimitClause) (fromC unionC : Option Node)
    (h : selectLimitFreeParts limitC fromC unionC = true) :
    (limitC = none ∨ ∃ lc, limitC = some lc ∧ lc.limit = -1) ∧
    (∀ tr, fromC = some tr → Node.limitFree tr = true) ∧
    (∀ u, unionC = some u → Node.limitFree u = true) := by
  unfold selectLimitFreeParts at h
  rw [Bool.and_eq_true, Bool.and_eq_true] at h
  refine ⟨limitFree_matchers limitC h.1.1, ?_, ?_⟩
  · intro tr htr
    subst htr
    exact h.1.2
  · intro u hu
    subst hu
    exact h.2

theorem transform_limit_invariants_aux :
    ∀ (k : Nat) (n : Node), sizeOf n ≤ k → ∀ (t : OpTree), transform n = .ok t →
      (Node.limitFree n = true → t.containsLimit = false) ∧
      t.limitOffsetsNonneg = true := by
  intro k
  induction k with
  | zero =>
    intro n hs
    exfalso
    cases n <;> simp_arith at hs
  | succ k ih =>
    intro n hs t ht
    cases n with
    | baseRef name =>
      cases ht
      exact ⟨fun _ => rfl, rfl⟩
    | derivedRef tableAlias sub =>
      have hred : transform (.derivedRef tableAlias sub) =
          Bind.bind (transform sub) (fun c => pure (.queryDerivedGet tableAlias c)) := rfl
      rw [hred] at ht
      cases hsub : transform sub with
      | error e =>
        rw [hsub] at ht
        simp only [Bind.bind, Except.bind] at ht
        cases ht
      | ok tsub =>
        rw [hsub] at ht
        simp only [Bind.bind, Except.bind, pure, Except.pure] at ht
        cases ht
        have hsize : sizeOf sub ≤ k := by
          have hlt : sizeOf sub < sizeOf (Node.derivedRef tableAlias sub) := by
            simp_arith
          omega
        have hrec := ih sub hsize tsub hsub
        exact ⟨fun hfree => hrec.1 (by simpa [Node.limitFree] using hfree), hrec.2⟩
    | listRef refs =>
      match refs with
      | [] =>
        cases ht
        exact ⟨fun _ => rfl, rfl⟩
      | [r] =>
        have hred : transform (.listRef [r]) = transform r := rfl
        rw [hred] at ht
        have hsize : sizeOf r ≤ k := by
          have hlt : sizeOf r < sizeOf (Node.listRef [r]) := by
            simp_arith
          omega
        have hrec := ih r hsize t ht
        refine ⟨fun hfree => hrec.1 ?_, hrec.2⟩
        have h1 : Node.limitFree.goLimitFree [r] = true := hfree
        rw [goLimitFree_eq_all] at h1
        simpa using h1
      | r :: r1 :: rest =>
        have hred : transform (.listRef (r :: r1 :: rest)) =
            Bind.bind (transform r) (fun t0 => chainRest t0 (r1 :: rest)) := rfl
        rw [hred] at ht
        cases hr : transform r with
        | error e =>
          rw [hr] at ht
          simp only [Bind.bind, Except.bind] at ht
          cases ht
        | ok t0 =>
          rw [hr] at ht
          simp only [Bind.bind, Except.bind] at ht
          obtain ⟨ts, hts, hfold⟩ := chainRest_ok_inv (r1 :: rest) t0 t ht
          have hsizer : sizeOf r ≤ k := by
            have hlt : sizeOf r < sizeOf (Node.listRef (r :: r1 :: rest)) := by
              simp_arith
            omega
          have hsizes : ∀ n', n' ∈ (r1 :: rest) → sizeOf n' ≤ k := by
            intro n' hn'
            have h1 : sizeOf n' < sizeOf (r1 :: rest) := List.sizeOf_lt_of_mem hn'
            have h2 : sizeOf (r1 :: rest) < sizeOf (Node.listRef (r :: r1 :: rest)) := by
              simp_arith
            omega
          have hrec0 := ih r hsizer t0 hr
          constructor
          · intro hfree
            have hall : (r :: r1 :: rest).all Node.limitFree = true := by
              have := goLimitFree_eq_all (r :: r1 :: rest)
              simpa [Node.limitFree, this] using hfree
            simp only [List.all_cons, Bool.and_eq_true] at hall
            subst hfold
            rw [foldl_innerJoin_containsLimit]
            have hc0 : t0.containsLimit = false := hrec0.1 hall.1
            have hcany : ts.any OpTree.containsLimit = false := by
              apply forall2_transform_any_false OpTree.containsLimit (r1 :: rest) ts hts
              intro n' t' hn' htn'
              exact ((ih n' (hsizes n' hn') t' htn').1)
                (by
                  have := hall.2
                  simp only [List.all_cons, Bool.and_eq_true] at this
                  rcases List.mem_cons.mp hn' with rfl | hmem
                  · exact this.1
                  · have := this.2
                    rw [List.all_eq_true] at this
                    exact this n' hmem)
            rw [hc0, hcany]
            rfl
          · subst hfold
            rw [foldl_innerJoin_offsets]
            have h0 : t0.limitOffsetsNonneg = true := hrec0.2
            have hallts : ts.all OpTree.limitOffsetsNonneg = true := by
              apply forall2_transform_all OpTree.limitOffsetsNonneg (r1 :: rest) ts hts
              intro n' t' hn' htn'
              exact (ih n' (hsizes n' hn') t' htn').2
            rw [h0, hallts]
            rfl
    | selectStmt cols distinct fromC whereC groupBy having orderBy limitC unionC depth =>
      obtain ⟨base, req, afterAgg, hbase, hreq, hagg, hunion⟩ :=
        transform_selectStmt_inv cols distinct fromC whereC groupBy having orderBy
          limitC unionC depth t ht
      have hbaseInv : (∀ hfree : (match fromC with
            | some tr => Node.limitFree tr
            | none => true) = true, base.containsLimit = false) ∧
          base.limitOffsetsNonneg = true := by
        cases fromC with
        | none =>
          cases hbase
          exact ⟨fun _ => rfl, rfl⟩
        | some tr =>
          have hsize : sizeOf tr ≤ k := by
            have hlt : sizeOf tr < sizeOf (Node.selectStmt cols distinct (some tr) whereC
                groupBy having orderBy limitC unionC depth) := by
              simp_arith
            omega
          have hrec := ih tr hsize base hbase
          exact ⟨fun hfree => hrec.1 hfree, hrec.2⟩
      have haggInv := buildAggregate_ok_inv cols distinct groupBy having req
        (buildFilter (splitPredicates whereC) base) afterAgg hagg
      have haggCL : afterAgg.containsLimit = base.containsLimit := by
        rw [haggInv.1, buildFilter_containsLimit]
      have haggOff : afterAgg.limitOffsetsNonneg = base.limitOffsetsNonneg := by
        rw [haggInv.2, buildFilter_offsets]
      constructor
      · intro hfree
        have hparts : selectLimitFreeParts limitC fromC unionC = true := by
          cases limitC <;> cases fromC <;> cases unionC <;> exact hfree
        have hfree' := selectLimitFreeParts_spec limitC fromC unionC hparts
        have hlim : limitC = none ∨ ∃ lc, limitC = some lc ∧ lc.limit = -1 := hfree'.1
        have hblim : buildLimit orderBy limitC afterAgg = afterAgg :=
          buildLimit_absent orderBy limitC afterAgg hlim
        have hbaseCL : base.containsLimit = false := by
          apply hbaseInv.1
          cases fromC with
          | none => rfl
          | some tr => exact hfree'.2.1 tr rfl
        rcases hunion with ⟨rfl, rfl⟩ | ⟨u, tu, rfl, hu, rfl⟩
        · rw [hblim, haggCL, hbaseCL]
        · have hsizeu : sizeOf u ≤ k := by
            have hlt : sizeOf u < sizeOf (Node.selectStmt cols distinct fromC whereC
                groupBy having orderBy limitC (some u) depth) := by
              simp_arith
            omega
          have hurec := ih u hsizeu tu hu
          have hucl : tu.containsLimit = false := hurec.1 (hfree'.2.2 u rfl)
          show ((buildLimit orderBy limitC afterAgg).containsLimit || tu.containsLimit) = false
          rw [hblim, haggCL, hbaseCL, hucl]
          rfl
      · rcases hunion with ⟨rfl, rfl⟩ | ⟨u, tu, rfl, hu, rfl⟩
        · rw [buildLimit_offsets, haggOff, hbaseInv.2]
        · have hsizeu : sizeOf u ≤ k := by
            have hlt : sizeOf u < sizeOf (Node.selectStmt cols distinct fromC whereC
                groupBy having orderBy limitC (some u) depth) := by
              simp_arith
            omega
          have hurec := ih u hsizeu tu hu
          show ((buildLimit orderBy limitC afterAgg).limitOffsetsNonneg && tu.limitOffsetsNonneg) = true
          rw [buildLimit_offsets, haggOff, hbaseInv.2, hurec.2]
          rfl

theorem transform_orderBy_irrelevant
    (cols : List PExpr) (distinct : Bool) (fromC : Option Node) (whereC : Option PExpr)
    (groupBy : Option (List PExpr)) (having : Option PExpr)
    (ob ob' : Option (List PExpr × List OrderType)) (limitC : Option LimitClause)
    (unionC : Option Node) (depth : Int)
    (hlim : limitC = none ∨ ∃ lc, limitC = some lc ∧ lc.limit = -1) :
    transform (.selectStmt cols distinct fromC whereC groupBy having ob limitC unionC depth) =
    transform (.selectStmt cols distinct fromC whereC groupBy having ob' limitC unionC depth) := by
  have hb : ∀ c, buildLimit ob limitC c = buildLimit ob' limitC c := by
    intro c
    rw [buildLimit_absent ob limitC c hlim, buildLimit_absent ob' limitC c hlim]
  cases fromC with
  | none =>
    cases unionC with
    | none =>
      show Bind.bind (checkConjunctivePredicates (splitPredicates whereC)) (fun _ =>
          Bind.bind (requireAggregation cols groupBy.isSome) (fun req =>
            Bind.bind (buildAggregate cols distinct groupBy having req
                (buildFilter (splitPredicates whereC) OpTree.emptyGet)) (fun afterAgg =>
              pure (buildLimit ob limitC afterAgg)))) =
        Bind.bind (checkConjunctivePredicates (splitPredicates whereC)) (fun _ =>
          Bind.bind (requireAggregation cols groupBy.isSome) (fun req =>
            Bind.bind (buildAggregate cols distinct groupBy having req
                (buildFilter (splitPredicates whereC) OpTree.emptyGet)) (fun afterAgg =>
              pure (buildLimit ob' limitC afterAgg))))
      simp only [hb]
    | some u =>
      show Bind.bind (checkConjunctivePredicates (splitPredicates whereC)) (fun _ =>
          Bind.bind (requireAggregation cols groupBy.isSome) (fun req =>
            Bind.bind (buildAggregate cols distinct groupBy having req
                (buildFilter (splitPredicates whereC) OpTree.emptyGet)) (fun afterAgg =>
              Bind.bind (transform u) (fun right =>
                pure (OpTree.unionOp (buildLimit ob limitC afterAgg) right))))) =
        Bind.bind (checkConjunctivePredicates (splitPredicates whereC)) (fun _ =>
          Bind.bind (requireAggregation cols groupBy.isSome) (fun req =>
            Bind.bind (buildAggregate cols distinct groupBy having req
                (buildFilter (splitPredicates whereC) OpTree.emptyGet)) (fun afterAgg =>
              Bind.bind (transform u) (fun right =>
                pure (OpTree.unionOp (buildLimit ob' limitC afterAgg) right)))))
      simp only [hb]
  | some tr =>
    cases unionC with
    | none =>
      show Bind.bind (transform tr) (fun base =>
          Bind.bind (checkConjunctivePredicates (splitPredicates whereC)) (fun _ =>
            Bind.bind (requireAggregation cols groupBy.isSome) (fun req =>
              Bind.bind (buildAggregate cols distinct groupBy having req
                  (buildFilter (splitPredicates whereC) base)) (fun afterAgg =>
                pure (buildLimit ob limitC afterAgg))))) =
        Bind.bind (transform tr) (fun base =>
          Bind.bind (checkConjunctivePredicates (splitPredicates whereC)) (fun _ =>
            Bind.bind (requireAggregation cols groupBy.isSome) (fun req =>
              Bind.bind (buildAggregate cols distinct groupBy having req
                  (buildFilter (splitPredicates whereC) base)) (fun afterAgg =>
                pure (buildLimit ob' limitC afterAgg)))))
      simp only [hb]
    | some u =>
      show Bind.bind (transform tr) (fun base =>
          Bind.bind (checkConjunctivePredicates (splitPredicates whereC)) (fun _ =>
            Bind.bind (requireAggregation cols groupBy.isSome) (fun req =>
              Bind.bind (buildAggregate cols distinct groupBy having req
                  (buildFilter (splitPredicates whereC) base)) (fun afterAgg =>
                Bind.bind (transform u) (fun right =>
                  pure (OpTree.unionOp (buildLimit ob limitC afterAgg) right)))))) =
        Bind.bind (transform tr) (fun base =>
          Bind.bind (checkConjunctivePredicates (splitPredicates whereC)) (fun _ =>
            Bind.bind (requireAggregation cols groupBy.isSome) (fun req =>
              Bind.bind (buildAggregate cols distinct groupBy having req
                  (buildFilter (splitPredicates whereC) base)) (fun afterAgg =>
                Bind.bind (transform u) (fun right =>
                  pure (OpTree.unionOp (buildLimit ob' limitC afterAgg) right))))))
      simp only [hb]

/-- Claim C10 (amended): when no query block of the statement — including
derived tables in FROM and UNION arms — has a LIMIT clause with a value
other than `-1`, the produced operator tree contains no Limit node at all,
even with an ORDER BY (a nested block with its own LIMIT does put a Limit
node in the tree: see the counterexample); the ORDER BY influences the
plan only through the Limit node (with an absent or `-1` LIMIT, changing
the ORDER BY does not change the tree); when a Limit node is built it
carries the ORDER BY keys and mapped directions and its offset is
`max(offset, 0)`, so every Limit node in a produced tree has a
non-negative offset. -/
theorem select_limit_lowering :
    (∀ (n : Node) (t : OpTree), transform n = .ok t →
      (Node.limitFree n = true → t.containsLimit = false) ∧
      t.limitOffsetsNonneg = true) ∧
    (∀ (cols : List PExpr) (distinct : Bool) (fromC : Option Node) (whereC : Option PExpr)
        (groupBy : Option (List PExpr)) (having : Option PExpr)
        (ob ob' : Option (List PExpr × List OrderType)) (limitC : Option LimitClause)
        (unionC : Option Node) (depth : Int),
      (limitC = none ∨ ∃ lc, limitC = some lc ∧ lc.limit = -1) →
      transform (.selectStmt cols distinct fromC whereC groupBy having ob limitC unionC depth) =
      transform (.selectStmt cols distinct fromC whereC groupBy having ob' limitC unionC depth)) ∧
    (∀ (es : List PExpr) (ots : List OrderType) (lc : LimitClause) (c : OpTree),
      lc.limit ≠ -1 →
      buildLimit (some (es, ots)) (some lc) c =
        .limitOp (max lc.offset 0) lc.limit es (ots.map toSortDirection) c) := by
  refine ⟨?_, ?_, ?_⟩
  · intro n t ht
    exact transform_limit_invariants_aux (sizeOf n) n (le_refl _) t ht
  · intro cols distinct fromC whereC groupBy having ob ob' limitC unionC depth hlim
    exact transform_orderBy_irrelevant cols distinct fromC whereC groupBy having
      ob ob' limitC unionC depth hlim
  · intro es ots lc c hlc
    simp [buildLimit, hlc]

/-- Claim C10 counterexample: a SELECT with no LIMIT clause of its own,
whose FROM clause is a derived table carrying `LIMIT 3`, produces an
operator tree that does contain a Limit node. -/
theorem select_limit_counterexample :
    transform (.selectStmt [] false
        (some (.derivedRef "d"
          (.selectStmt [] false (some (.baseRef "s")) none none none none
            (some ⟨3, 0⟩) none 0)))
        none none none none none none 0) =
      .ok (.queryDerivedGet "d" (.limitOp 0 3 [] [] (.get "s"))) ∧
    (OpTree.queryDerivedGet "d" (.limitOp 0 3 [] [] (.get "s"))).containsLimit = true :=
  ⟨rfl, rfl⟩

/-- Witness for `select_limit_lowering` at concrete inputs. -/
theorem select_limit_lowering_witness :
    ((Node.limitFree (.selectStmt [] false (some (.baseRef "s")) none none none none
        none none 0) = true →
      (OpTree.get "s").containsLimit = false) ∧
      (OpTree.get "s").limitOffsetsNonneg = true) ∧
    transform (.selectStmt [] false (some (.baseRef "s")) none none none
        (some ([], [])) none none 0) =
      transform (.selectStmt [] false (some (.baseRef "s")) none none none
        none none none 0) ∧
    buildLimit (some ([], [OrderType.orderAsc])) (some ⟨7, -4⟩) (.get "s") =
      .limitOp 0 7 [] [SortDirection.asc] (.get "s") :=
  ⟨select_limit_lowering.1 (.selectStmt [] false (some (.baseRef "s")) none none none none
      none none 0) (.get "s") rfl,
   select_limit_lowering.2.1 [] false (some (.baseRef "s")) none none none
      (some ([], [])) none none none 0 (Or.inl rfl),
   by
    have h := select_limit_lowering.2.2 [] [OrderType.orderAsc] ⟨7, -4⟩ (.get "s") (by decide)
    simpa using h⟩

end NoisePage
